import Mathlib

/-!
Verification development for the timerbot repository (src/bot/...).

Python strings are modelled as `List Char` (`PyStr`), timezone-aware UTC
datetimes as `Int` seconds since the Unix epoch, and each Python operation
used by the verified claims is translated into an executable Lean function.
Regex-based parsing in the source is translated pattern-by-pattern: every
matcher function carries the exact Python regex it embeds in its doc comment,
and uses maximal-run scanning where that is equivalent to the regex engine's
backtracking (in particular a greedy class run `X+` followed by `\s+` needs
no backtracking when the class contains no whitespace).
-/

namespace Timerbot

/-- A Python `str`, modelled as a list of characters. -/
abbrev PyStr := List Char

/-- The whitespace characters recognised by Python's `str.strip` /
`str.split()` / `\s` for the ASCII range used by this program. -/
def pyIsSpace (c : Char) : Bool :=
  c = ' ' || c = '\t' || c = '\n' || c = '\r' || c = '\x0b' || c = '\x0c'

/-- Python `str.strip()`: remove leading and trailing whitespace. -/
def pyStrip (s : PyStr) : PyStr :=
  ((s.dropWhile pyIsSpace).reverse.dropWhile pyIsSpace).reverse

/-- Python `str.upper()` (ASCII; the strings handled here are ASCII apart
from emoji, on which `upper` is the identity, as is `Char.toUpper`). -/
def pyUpper (s : PyStr) : PyStr := s.map Char.toUpper

/-- Python `str.lower()` (ASCII, see `pyUpper`). -/
def pyLower (s : PyStr) : PyStr := s.map Char.toLower

/-- Python's `sub in s` substring test. -/
def containsSub (pat : PyStr) : PyStr → Bool
  | [] => pat.isPrefixOf ([] : PyStr)
  | c :: rest => pat.isPrefixOf (c :: rest) || containsSub pat rest

/-- Python `s.split(sep)` for a single-character separator (used for
`input_text.split('\n')` and `description.split(' - ', 1)` has its own
helper below). -/
def splitOnChar (sep : Char) : PyStr → List PyStr
  | [] => [[]]
  | c :: rest =>
    let r := splitOnChar sep rest
    if c = sep then [] :: r
    else match r with
      | [] => [[c]]
      | g :: gs => (c :: g) :: gs

/-- Python `s.split(pat, 1)[1]`: the part of `s` after the first occurrence
of `pat` (the caller guards on `pat in s`). -/
def splitOnceAfter (pat : PyStr) : PyStr → PyStr
  | [] => []
  | c :: rest =>
    if pat.isPrefixOf (c :: rest) then (c :: rest).drop pat.length
    else splitOnceAfter pat rest

/-- Helper for `splitWs`: scan the string, accumulating the current word
(in reverse) and emitting it at each whitespace boundary. -/
def splitWsAux : PyStr → PyStr → List PyStr
  | [], acc => if acc = [] then [] else [acc.reverse]
  | c :: rest, acc =>
    if pyIsSpace c then
      (if acc = ([] : PyStr) then [] else [acc.reverse]) ++ splitWsAux rest []
    else splitWsAux rest (c :: acc)

/-- Python `str.split()` (split on whitespace runs, dropping empty parts),
as used by `clean_system_name`. -/
def splitWs (s : PyStr) : List PyStr := splitWsAux s []

/-- Decimal digits of a natural number, as characters. -/
def natDigits (n : Nat) : PyStr := (Nat.toDigits 10 n)

/-- Zero-pad the decimal rendering of `n` to width `w`
(Python `%02d`-style formatting inside `strftime`). -/
def padNat (w n : Nat) : PyStr :=
  let d := natDigits n
  List.replicate (w - d.length) '0' ++ d

/-- A wall-clock datetime, as produced by `datetime.strptime`. -/
structure DT where
  year : Nat
  month : Nat
  day : Nat
  hour : Nat
  minute : Nat
  second : Nat
deriving DecidableEq, Repr

/-- Days from the civil date to the Unix epoch (Howard Hinnant's
`days_from_civil`; Lean's `Int` division is truncated like C's, which is
what the algorithm is written for). -/
def daysFromCivil (y m d : Int) : Int :=
  let y' := if m ≤ 2 then y - 1 else y
  let era := (if 0 ≤ y' then y' else y' - 399) / 400
  let yoe := y' - era * 400
  let mp := if 2 < m then m - 3 else m + 9
  let doy := (153 * mp + 2) / 5 + d - 1
  let doe := yoe * 365 + yoe / 4 - yoe / 100 + doy
  era * 146097 + doe - 719468

/-- UTC epoch seconds of a wall-clock datetime: the value of
`EVE_TZ.localize(datetime.strptime(...)).timestamp()`. -/
def dtToSec (t : DT) : Int :=
  86400 * daysFromCivil t.year t.month t.day
    + 3600 * t.hour + 60 * t.minute + t.second

/-- Civil date from days since the Unix epoch (Hinnant's `civil_from_days`). -/
def civilFromDays (z0 : Int) : Int × Int × Int :=
  let z := z0 + 719468
  let era := (if 0 ≤ z then z else z - 146096) / 146097
  let doe := z - era * 146097
  let yoe := (doe - doe / 1460 + doe / 36524 - doe / 146096) / 365
  let y := yoe + era * 400
  let doy := doe - (365 * yoe + yoe / 4 - yoe / 100)
  let mp := (5 * doy + 2) / 153
  let d := doy - (153 * mp + 2) / 5 + 1
  let m := if mp < 10 then mp + 3 else mp - 9
  (if m ≤ 2 then y + 1 else y, m, d)

/-- `strftime('%Y-%m-%d %H:%M:%S')` of a UTC epoch-seconds value. -/
def formatTime (t : Int) : PyStr :=
  let days := t.ediv 86400
  let rem := (t.emod 86400).toNat
  let (y, m, d) := civilFromDays days
  padNat 4 y.toNat ++ ['-'] ++ padNat 2 m.toNat ++ ['-'] ++ padNat 2 d.toNat
    ++ [' '] ++ padNat 2 (rem / 3600) ++ [':'] ++ padNat 2 (rem / 60 % 60)
    ++ [':'] ++ padNat 2 (rem % 60)

/-! ## Data model (`src/bot/models/timer.py`) -/

/-- The `Timer` dataclass. `message_id` is omitted: no verified claim
mentions it and no modelled operation reads it. -/
structure Timer where
  time : Int
  description : PyStr
  timer_id : Nat
  system : PyStr
  structure_name : PyStr
  notes : PyStr
  region : PyStr
deriving DecidableEq, Repr

/-- The mutable state of `TimerBoard`: the timer list, the id counter and
the filtered-region set (modelled as a list without duplicates entered by
`filter`, which itself checks membership before adding). -/
structure Board where
  timers : List Timer
  next_id : Nat
  filtered_regions : List PyStr
deriving DecidableEq, Repr

/-- `TimerBoard.STARTING_TIMER_ID`. -/
def STARTING_TIMER_ID : Nat := 1000

/-- `TimerBoard.MAX_MESSAGE_LENGTH`. -/
def MAX_MESSAGE_LENGTH : Nat := 1900

/-- A fresh board: `__init__` with no save file
(`next_id = STARTING_TIMER_ID`, no timers, no filtered regions). -/
def initBoard : Board := ⟨[], STARTING_TIMER_ID, []⟩

/-- `get_region` from `src/bot/utils/eve_data.py`; the system→region table
(loaded from an external JSON data file that is not part of the sources)
is a parameter. -/
def getRegion (tbl : List (PyStr × PyStr)) (system : PyStr) : PyStr :=
  if system = [] then "Unknown".data
  else match tbl.find? (fun kv => kv.1 == system) with
  | some kv => kv.2
  | none => match tbl.find? (fun kv => kv.1 == pyUpper system) with
    | some kv => kv.2
    | none => match tbl.find? (fun kv => pyUpper kv.1 == pyUpper system) with
      | some kv => kv.2
      | none => "Unknown".data

/-- `Timer.is_similar`: `|time difference| ≤ 5` minutes (300 seconds; the
Python float division of integral seconds by 60 compares exactly) and
case-insensitively equal system and structure name. -/
def isSimilar (a b : Timer) : Bool :=
  decide ((a.time - b.time).natAbs ≤ 300)
    && pyLower a.system == pyLower b.system
    && pyLower a.structure_name == pyLower b.structure_name

/-- Character class `[A-Za-z0-9-]` (ASCII, as in Python `re`). -/
def isSysChar (c : Char) : Bool := c.isUpper || c.isLower || c.isDigit || c = '-'

/-- The suffix test for the optional tail `(?:\s+\[.*\])?$` of the
`add_timer` description regex, applied to the text after the lazy group 2:
at least one whitespace char, then `[`, then anything ending in `]`
(`\s+` can only hand over at the end of the whitespace run when the next
char must be `[`, and `.*\]$` holds iff the text ends in `]`). -/
def tagTail (r : PyStr) : Bool :=
  let w := r.takeWhile pyIsSpace
  let rest := r.drop w.length
  decide (w ≠ []) && (rest.head? == some '[') && decide (2 ≤ rest.length)
    && (rest.getLast? == some ']')

/-- Lazy group 2 of the `add_timer` regex: the shortest nonempty prefix of
`rest` whose remainder is empty or matches `\s+\[.*\]$` (tried shortest
first, as a lazy `.+?` does). -/
def findLazyGroup2 (rest : PyStr) : Option (PyStr × PyStr) :=
  (List.range rest.length).findSome? fun k =>
    let g := rest.take (k + 1)
    let tl := rest.drop (k + 1)
    if tl = [] || tagTail tl then some (g, tl) else none

/-- `re.match(r'([A-Za-z0-9-]+)\s*-\s*(.+?)(?:\s+\[.*\])?$', description)`
from `TimerBoard.add_timer`, returning (system, structure_name).
Group 1 is tried greedily (longest prefix of the maximal class run first,
backtracking shorter as the engine does); each `\s*` skip can only hand
over at a position within its whitespace run, tried longest first. -/
def addTimerParse (s : PyStr) : Option (PyStr × PyStr) :=
  let run := s.takeWhile isSysChar
  (List.range run.length).findSome? fun i =>
    let g1len := run.length - i
    let g1 := s.take g1len
    let afterG1 := s.drop g1len
    let ws1 := (afterG1.takeWhile pyIsSpace).length
    match (afterG1.drop ws1).head? with
    | some '-' =>
      let afterDash := (afterG1.drop ws1).drop 1
      let ws2 := (afterDash.takeWhile pyIsSpace).length
      (List.range (ws2 + 1)).findSome? fun j =>
        (findLazyGroup2 (afterDash.drop (ws2 - j))).map fun g2 => (g1, g2.1)
    | _ => none

/-- `re.search(r'(\[.*\](?:\[.*\])*$)', description)` from
`TimerBoard.add_timer`: the text from the first `[` to the end, when the
description ends in `]` (which is exactly when the pattern can match);
empty when there is no match. -/
def notesSearch (s : PyStr) : PyStr :=
  if s.contains '[' && s.getLast? == some ']' then s.dropWhile (fun c => c != '[') else []

/-- `re.match(r'Sov Hub \((.*?)\)', description)` from
`Timer.__post_init__`: the anchored literal `Sov Hub (`, then the lazy
group runs to the first `)` (`.` cannot cross a newline). -/
def sovHubMatch (s : PyStr) : Option PyStr :=
  if "Sov Hub (".data.isPrefixOf s then
    let rest := s.drop 9
    let inner := rest.takeWhile (fun c => c != ')' && c != '\n')
    if (rest.drop inner.length).head? = some ')' then some inner else none
  else none

/-- `re.findall(r'\[(.*?)\]', description)` from `Timer.__post_init__`:
scan for `[`, take the lazy group up to the first `]` (never crossing a
newline) and continue after the match, or resume from the next character
when no `]` closes this `[`. -/
def findallBrackets (s : PyStr) : List PyStr :=
  match s with
  | [] => []
  | c :: rest =>
    if c = '[' then
      let inner := rest.takeWhile (fun d => d != ']' && d != '\n')
      if (rest.drop inner.length).head? = some ']' then
        inner :: findallBrackets ((rest.drop inner.length).drop 1)
      else findallBrackets rest
    else findallBrackets rest
termination_by s.length
decreasing_by
  all_goals simp_wf
  all_goals try simp [List.length_drop, List.length_cons]
  all_goals omega

/-- `' '.join(f'[{tag}]' for tag in tags_match) if tags_match else ""`. -/
def notesFromTags (tags : List PyStr) : PyStr :=
  List.intercalate [' '] (tags.map (fun t => '[' :: (t ++ [']'])))

/-- `re.match(r'([A-Za-z0-9-]+)\s*-\s*(.*?)(?=\s*\[|$)', description)` from
`Timer.__post_init__`: like the `add_timer` pattern but the lazy group may
be empty and ends at the lookahead `\s*\[` (whose `\s*` may cross
newlines) or at `$` — the end of the string, or just before one final
trailing newline; the group itself cannot cross a newline. -/
def postInitParse (s : PyStr) : Option (PyStr × PyStr) :=
  let run := s.takeWhile isSysChar
  (List.range run.length).findSome? fun i =>
    let g1len := run.length - i
    let g1 := s.take g1len
    let afterG1 := s.drop g1len
    let ws1 := (afterG1.takeWhile pyIsSpace).length
    match (afterG1.drop ws1).head? with
    | some '-' =>
      let afterDash := (afterG1.drop ws1).drop 1
      let ws2 := (afterDash.takeWhile pyIsSpace).length
      (List.range (ws2 + 1)).findSome? fun j =>
        let rest := afterDash.drop (ws2 - j)
        let line := rest.takeWhile (fun d => d != '\n')
        (List.range (line.length + 1)).findSome? fun k =>
          let tl := rest.drop k
          if tl = [] ∨ tl = ['\n'] ∨ (tl.dropWhile pyIsSpace).head? = some '[' then
            some (g1, rest.take k)
          else none
    | _ => none

/-- `Timer.__post_init__`: when the system was already provided only the
region is backfilled; otherwise the description is re-parsed — the
`Sov Hub (...)` format first, then the standard `system - structure`
format (tags via `findall`, region looked up when unset), and as a last
resort the fields become `Unknown` / the whole description / no notes /
empty region. -/
def postInit (tbl : List (PyStr × PyStr)) (t : Timer) : Timer :=
  if t.system ≠ [] then
    if t.region = [] then { t with region := getRegion tbl t.system } else t
  else
    match sovHubMatch t.description with
    | some sys =>
      let notes := notesFromTags (findallBrackets t.description)
      let region := if t.region = [] then getRegion tbl sys else t.region
      { t with
        system := sys
        structure_name := "Sov Hub".data
        notes := notes
        region := region }
    | none =>
      match postInitParse t.description with
      | some (sys, st) =>
        let notes := notesFromTags (findallBrackets t.description)
        let region := if t.region = [] then getRegion tbl sys else t.region
        { t with
          system := sys
          structure_name := pyStrip st
          notes := notes
          region := region }
      | none =>
        { t with
          system := "Unknown".data
          structure_name := t.description
          notes := []
          region := [] }

/-- Stable insertion of a timer into a time-sorted list (placed after
timers with an equal time, matching the stability of Python's sort). -/
def insertByTime (t : Timer) : List Timer → List Timer
  | [] => [t]
  | x :: xs => if t.time < x.time then t :: x :: xs else x :: insertByTime t xs

/-- `TimerBoard.sort_timers`: stable sort of the timer list by time. -/
def sortTimers (l : List Timer) : List Timer :=
  l.foldl (fun acc t => insertByTime t acc) []

/-- `TimerBoard.add_timer(time, description)`: parse system, structure
name and notes from the description, assign `next_id`, construct the
`Timer` dataclass — which runs `__post_init__` (a no-op beyond the region
backfill when the system parsed, a re-parse of the description when it did
not) — collect similar timers, always append, re-sort, bump the counter.
Returns the updated board with the new timer and the similar-timer list. -/
def addTimer (tbl : List (PyStr × PyStr)) (b : Board) (time : Int)
    (description : PyStr) : Board × Timer × List Timer :=
  let fields := match addTimerParse description with
    | some (sys, st) => (sys, pyStrip st, notesSearch description)
    | none => (([] : PyStr), description, ([] : PyStr))
  let region := if fields.1 ≠ [] then getRegion tbl fields.1 else []
  let newTimer : Timer := postInit tbl
    { time := time, description := description, timer_id := b.next_id,
      system := fields.1, structure_name := fields.2.1, notes := fields.2.2,
      region := region }
  let similar := b.timers.filter (fun t => isSimilar t newTimer)
  ({ b with timers := sortTimers (b.timers ++ [newTimer]), next_id := b.next_id + 1 },
    newTimer, similar)

/-- `TimerBoard.remove_timer(timer_id)`: remove the first timer with the
given id (if any) and return it. -/
def removeTimer (b : Board) (timer_id : Nat) : Board × Option Timer :=
  match b.timers.find? (fun t => t.timer_id == timer_id) with
  | some t => ({ b with timers := b.timers.eraseP (fun u => u.timer_id == timer_id) }, some t)
  | none => (b, none)

/-- `TimerBoard.remove_expired()` with `expiry_time` minutes from the
configuration: timers strictly older than `now - expiry_time` minutes are
removed and returned; the rest are kept (`t.time >= expiry_threshold`). -/
def removeExpired (b : Board) (now : Int) (expiry_time : Int) : Board × List Timer :=
  let threshold := now - expiry_time * 60
  let expired := b.timers.filter (fun t => decide (t.time < threshold))
  ({ b with timers := b.timers.filter (fun t => decide (threshold ≤ t.time)) }, expired)

/-- A store operation for claim C1: an `add_timer` or `remove_timer` call. -/
inductive StoreOp where
  | add (time : Int) (description : PyStr)
  | remove (timer_id : Nat)

/-- Apply one store operation, recording the id assigned by an `add`. -/
def applyOp (tbl : List (PyStr × PyStr)) :
    Board × List Nat → StoreOp → Board × List Nat
  | (b, ids), .add time desc =>
    let r := addTimer tbl b time desc
    (r.1, ids ++ [r.2.1.timer_id])
  | (b, ids), .remove i => ((removeTimer b i).1, ids)

/-- Run a sequence of store operations from a fresh board, collecting the
ids assigned by the `add` calls in order. -/
def runOps (tbl : List (PyStr × PyStr)) (ops : List StoreOp) : Board × List Nat :=
  ops.foldl (applyOp tbl) (initBoard, [])

/-! ## Rendering (`Timer.to_string`, `TimerBoard.update_timerboard`) -/

/-- `clean_system_name` from `src/bot/utils/helpers.py`. -/
def cleanSystemName (s : PyStr) : PyStr :=
  let s1 := s.map (fun c => if c = '»' || c = '«' then '-' else c)
  List.intercalate ['-'] (splitWs s1)

/-- `Timer.to_string()` at render time `now`: timestamp in backticks, a
dotlan hyperlink for the system, the region in parentheses when nonempty,
then either the description tail (IHUB-with-shield-emoji branch, which as
written appends no timer id) or the structure name, notes and
`" (timer_id)"` (standard branch), wrapped in `~~...~~` when expired. -/
def timerToString (now : Int) (t : Timer) : PyStr :=
  let time_str := formatTime t.time
  let system_link :=
    ['['] ++ t.system ++ "](https://evemaps.dotlan.net/system/".data
      ++ cleanSystemName t.system ++ [')']
  let region_part := if t.region ≠ [] then ['('] ++ t.region ++ [')'] else []
  let base :=
    if containsSub "[IHUB]".data t.description
        && containsSub "🛡️".data t.description then
      let structure_part :=
        if containsSub " - ".data t.description
        then splitOnceAfter " - ".data t.description else t.description
      pyStrip (['\x60'] ++ time_str ++ ['\x60', ' '] ++ system_link ++ [' ']
        ++ region_part ++ [' '] ++ structure_part)
    else
      let b0 := pyStrip (['\x60'] ++ time_str ++ ['\x60', ' '] ++ system_link ++ [' ']
        ++ region_part ++ [' '] ++ t.structure_name)
      let b1 := if t.notes ≠ [] then b0 ++ [' '] ++ t.notes else b0
      b1 ++ " (".data ++ natDigits t.timer_id ++ [')']
  if t.time < now then "~~".data ++ base ++ "~~".data else base

/-- The timers shown by `TimerBoard.update_timerboard`: sorted by time,
keeping a timer iff its region is empty or its uppercased region is not in
the uppercased filtered-region set. -/
def renderTimers (b : Board) : List Timer :=
  let filteredUpper := b.filtered_regions.map pyUpper
  (sortTimers b.timers).filter
    (fun t => if t.region = [] then true else !(filteredUpper.contains (pyUpper t.region)))

/-- The board header `f"Current Time: {now...}\n\n"` with the formatted
timestamp abstracted as `ts` (always 19 characters from `strftime`). -/
def pyHeader (ts : PyStr) : PyStr := "Current Time: ".data ++ ts ++ ['\n', '\n']

/-- The page-accumulation loop of `update_timerboard`. The state is the
current message both as the exact string the source manipulates and as the
list of timer lines it contains; emitted pages carry the stripped page
string together with its lines. -/
def splitLoop (header : PyStr) :
    List PyStr → PyStr × List PyStr → List (PyStr × List PyStr) → List (PyStr × List PyStr)
  | [], cur, acc =>
    if pyStrip cur.1 ≠ [] ∧ pyStrip cur.1 ≠ pyStrip header
    then acc ++ [(pyStrip cur.1, cur.2)] else acc
  | l :: rest, cur, acc =>
    if cur.1.length + l.length + 1 > MAX_MESSAGE_LENGTH then
      splitLoop header rest (l ++ ['\n'], [l]) (acc ++ [(pyStrip cur.1, cur.2)])
    else
      splitLoop header rest (cur.1 ++ l ++ ['\n'], cur.2 ++ [l]) acc

/-- The page-splitting step of `update_timerboard`: start from the header,
run the accumulation loop, and replace everything by the single
"No active timers." message when the timer list is empty. -/
def splitMessages (header : PyStr) (ls : List PyStr) : List (PyStr × List PyStr) :=
  if ls = [] then [(header ++ "No active timers.".data, [])]
  else splitLoop header ls (header, []) []

/-! ## Alert loop (`check_timers` in `src/bot/main.py`) -/

/-- The alert bookkeeping: the `sixty_min_alerted` and `start_time_alerted`
sets and the notifications emitted so far, each tagged `true` for a
60-minute warning and `false` for a starting-now notification. -/
structure AlertState where
  sixty : List Nat
  started : List Nat
  alerts : List (Bool × Nat)
deriving DecidableEq, Repr

/-- Fresh alert state: both sets empty, nothing emitted. -/
def initAlertState : AlertState := ⟨[], [], []⟩

/-- The filtered-region skip of `check_timers`: regions are uppercased and
stripped on both sides, and `is_filtered` is the Python conjunction
`timer_region_upper and timer_region_upper in filtered_regions_upper` —
so a timer with an empty region (`timer_region_upper` is `None`) or with a
region that strips to the empty string (the falsy `''`) is never skipped,
regardless of the membership test. -/
def isFilteredAlert (filtered_regions : List PyStr) (t : Timer) : Bool :=
  if t.region = [] then false
  else
    decide (pyStrip (pyUpper t.region) ≠ [])
      && (filtered_regions.map (fun r => pyStrip (pyUpper r))).contains
        (pyStrip (pyUpper t.region))

/-- One iteration of the `for timer in upcoming_timers` loop body:
skip filtered timers entirely, else emit the 60-minute warning when
`59 <= time_until <= 60` and not yet alerted, else the starting-now
notification when `-1 <= time_until <= 1` and not yet alerted.
`time_until` is `(t.time - now)/60` in float minutes; on integral seconds
the comparisons are exactly the scaled integer comparisons used here. -/
def alertLoopBody (fr : List PyStr) (now : Int) (st : AlertState) (t : Timer) :
    AlertState :=
  if isFilteredAlert fr t then st
  else
    let s := t.time - now
    if 3540 ≤ s ∧ s ≤ 3600 ∧ t.timer_id ∉ st.sixty then
      { st with
        alerts := st.alerts ++ [(true, t.timer_id)]
        sixty := st.sixty ++ [t.timer_id] }
    else if -60 ≤ s ∧ s ≤ 60 ∧ t.timer_id ∉ st.started then
      { st with
        alerts := st.alerts ++ [(false, t.timer_id)]
        started := st.started ++ [t.timer_id] }
    else st

/-- One cycle of `check_timers` (the alert portion): restrict to upcoming
timers (`time > now` and at most 3600 seconds away) and run the loop body
over them. A command channel is assumed present, so emitting and setting
the flag happen together as in the source's per-channel loop. -/
def checkCycle (now : Int) (b : Board) (st : AlertState) : AlertState :=
  (b.timers.filter (fun t => decide (now < t.time ∧ t.time - now ≤ 3600))).foldl
    (alertLoopBody b.filtered_regions now) st

/-- Repeated scheduler cycles at the given clock readings over a fixed
board. -/
def runCycles (nows : List Int) (b : Board) (st : AlertState) : AlertState :=
  nows.foldl (fun st now => checkCycle now b st) st

/-! ## `filter` / `unfilter` commands (`src/bot/cogs/timer_commands.py`) -/

/-- The fixed region list of the `!filter` / `!unfilter` commands. -/
def regionsToFilter : List PyStr :=
  ["The Kalevala Expanse", "Oasa", "Cobalt Edge", "The Spire", "Malpais",
   "Etherium Reach", "Perrigen Falls"].map String.data

/-- `TimerCommands.filter`: add each region not yet present
(case-insensitively) to the filtered set; timers are untouched. -/
def filterCmd (b : Board) : Board :=
  regionsToFilter.foldl (fun b r =>
    if (b.filtered_regions.map pyUpper).contains (pyUpper r) then b
    else { b with filtered_regions := b.filtered_regions ++ [r] }) b

/-- `TimerCommands.unfilter`: remove the first stored region matching each
listed region case-insensitively (the uppercased membership set is computed
once, before the loop, as in the source); timers are untouched. -/
def unfilterCmd (b : Board) : Board :=
  let upperSet := b.filtered_regions.map pyUpper
  regionsToFilter.foldl (fun b r =>
    if upperSet.contains (pyUpper r) then
      { b with filtered_regions :=
          b.filtered_regions.eraseP (fun fr => pyUpper fr == pyUpper r) }
    else b) b

/-! ## The `!add` command (`TimerCommands.add` in
`src/bot/cogs/timer_commands.py`) -/

/-- Character class `[A-Z0-9-]` (uppercase letters only, as in the
Mercenary Den and system-extraction regexes). -/
def isUpperSysChar (c : Char) : Bool := c.isUpper || c.isDigit || c = '-'

/-- Character class `[IVX]` (roman planet numerals). -/
def isRoman (c : Char) : Bool := c = 'I' || c = 'V' || c = 'X'

/-- Value of a run of decimal digits (`int(...)` on a `\d+` group). -/
def digitsToNat (ds : PyStr) : Nat :=
  ds.foldl (fun n c => n * 10 + (c.toNat - '0'.toNat)) 0

/-- Result of the Mercenary Den regex
`r'^Merc Den\s+([A-Z0-9-]+)\s+([^\s]+)\s+(\d+)\s+(\d+)(?:\s+(\[[^\]]+\]))?\s*$'`. -/
structure MercDen where
  system : PyStr
  planet : PyStr
  hours : Nat
  minutes : Nat
  tag : Option PyStr
deriving DecidableEq, Repr

/-- Match the Mercenary Den pattern against the stripped input. Every
token class (`[A-Z0-9-]`, `[^\s]`, `\d`) is whitespace-free, so each
greedy `X+` followed by `\s+` matches exactly the maximal run followed by
at least one whitespace character, with no backtracking. -/
def mercDenMatch (s : PyStr) : Option MercDen :=
  if "Merc Den".data.isPrefixOf s then
    let r0 := s.drop 8
    let w1 := r0.takeWhile pyIsSpace
    let r1 := r0.drop w1.length
    let g1 := r1.takeWhile isUpperSysChar
    let r2 := r1.drop g1.length
    let w2 := r2.takeWhile pyIsSpace
    let r3 := r2.drop w2.length
    let g2 := r3.takeWhile (fun c => !pyIsSpace c)
    let r4 := r3.drop g2.length
    let w3 := r4.takeWhile pyIsSpace
    let r5 := r4.drop w3.length
    let g3 := r5.takeWhile Char.isDigit
    let r6 := r5.drop g3.length
    let w4 := r6.takeWhile pyIsSpace
    let r7 := r6.drop w4.length
    let g4 := r7.takeWhile Char.isDigit
    let r8 := r7.drop g4.length
    if w1 ≠ [] ∧ g1 ≠ [] ∧ w2 ≠ [] ∧ g2 ≠ [] ∧ w3 ≠ [] ∧ g3 ≠ [] ∧ w4 ≠ []
        ∧ g4 ≠ [] then
      -- tail: `(?:\s+(\[[^\]]+\]))?\s*$`
      if r8.dropWhile pyIsSpace = [] then
        some ⟨g1, g2, digitsToNat g3, digitsToNat g4, none⟩
      else
        let w5 := r8.takeWhile pyIsSpace
        let r9 := r8.drop w5.length
        if w5 ≠ [] ∧ r9.head? = some '[' then
          let inner := (r9.drop 1).takeWhile (fun c => c != ']')
          let r10 := (r9.drop 1).drop inner.length
          if inner ≠ [] ∧ r10.head? = some ']' ∧ (r10.drop 1).dropWhile pyIsSpace = []
          then some ⟨g1, g2, digitsToNat g3, digitsToNat g4,
            some ('[' :: inner ++ [']'])⟩
          else none
        else none
    else none
  else none

/-- `re.match(r'^Customs Office\s+\(([A-Z0-9-]+)\s+([IVX]+)\)', structure_name)`:
returns (system, planet numeral). -/
def customsOfficeMatch (s : PyStr) : Option (PyStr × PyStr) :=
  if "Customs Office".data.isPrefixOf s then
    let r0 := s.drop 14
    let w1 := r0.takeWhile pyIsSpace
    let r1 := r0.drop w1.length
    if w1 ≠ [] ∧ r1.head? = some '(' then
      let g1 := (r1.drop 1).takeWhile isUpperSysChar
      let r2 := (r1.drop 1).drop g1.length
      let w2 := r2.takeWhile pyIsSpace
      let r3 := r2.drop w2.length
      let g2 := r3.takeWhile isRoman
      let r4 := r3.drop g2.length
      if g1 ≠ [] ∧ w2 ≠ [] ∧ g2 ≠ [] ∧ r4.head? = some ')' then some (g1, g2)
      else none
    else none
  else none

/-- Alternative 1 of the system-extraction regex
`r'(?:.*?\(([A-Z0-9-]+)[^\)]*\))|...'`: the lazy `.*?` scans for the first
`(` that is followed by at least one `[A-Z0-9-]` character and,
further on, by a `)`; the captured group is the maximal class run after
the `(`. The input is a single line, so `.` never hits a newline. -/
def systemParenAlt : PyStr → Option PyStr
  | [] => none
  | '(' :: rest =>
    let run := rest.takeWhile isUpperSysChar
    if run ≠ [] ∧ (rest.drop run.length).contains ')' then some run
    else systemParenAlt rest
  | _ :: rest => systemParenAlt rest

/-- `re.match(r'(?:.*?\(([A-Z0-9-]+)[^\)]*\))|([A-Z0-9-]+)(?:\s*[»>]\s*.*)?', s)`:
try the parenthesised alternative anywhere on the line, else an anchored
leading `[A-Z0-9-]+` run (whose optional gate-glyph tail never shrinks
the greedy run). -/
def systemExtract (s : PyStr) : Option PyStr :=
  match systemParenAlt s with
  | some g => some g
  | none =>
    let run := s.takeWhile isUpperSysChar
    if run ≠ [] then some run else none

/-- `re.search(r'\(.*?\s+([IVX]+)\)', structure_name)` from the Skyhook
branch: after the first `(`, the lazy gap can reach any later position, so
the match exists iff some whitespace run (≥ 1) is followed by a roman run
(≥ 1) and a `)`; the first such position wins. -/
def skyhookPlanetSearch (s : PyStr) : Option PyStr :=
  match s.dropWhile (fun c => c != '(') with
  | [] => none
  | _ :: rest => scan rest
where
  scan : PyStr → Option PyStr
    | [] => none
    | c :: r =>
      if pyIsSpace c then
        let w := (c :: r).takeWhile pyIsSpace
        let afterW := (c :: r).drop w.length
        let roman := afterW.takeWhile isRoman
        if roman ≠ [] ∧ (afterW.drop roman.length).head? = some ')' then some roman
        else scan r
      else scan r

/-- Fixed-shape timestamp matcher: `\d{4}`,`sep1`,`\d{2}`,`sep1`,`\d{2}`,
space, `\d{2}:\d{2}:\d{2}` (19 characters); returns the matched text and
the rest. -/
def matchTimestamp19 (sep1 : Char) (s : PyStr) : Option (PyStr × PyStr) :=
  let ts := s.take 19
  let shape : List (Char → Bool) :=
    [Char.isDigit, Char.isDigit, Char.isDigit, Char.isDigit, (· = sep1),
     Char.isDigit, Char.isDigit, (· = sep1), Char.isDigit, Char.isDigit,
     (· = ' '), Char.isDigit, Char.isDigit, (· = ':'), Char.isDigit,
     Char.isDigit, (· = ':'), Char.isDigit, Char.isDigit]
  if ts.length = 19 ∧ (ts.zip shape).all (fun p => p.2 p.1) then
    some (ts, s.drop 19)
  else none

/-- `re.search(r'(?:Reinforced|Anchoring) until (\d{4}\.\d{2}\.\d{2} \d{2}:\d{2}:\d{2})\s*(\[.*\](?:\[.*\])*)?$', line)`:
scan for either lead-in followed by the dotted timestamp; after the
timestamp and the (deterministic, since `[` is not whitespace) `\s*` skip,
the `$`-anchored optional tag group matches iff the remainder is empty or
starts with `[` and ends with `]`. Returns (timestamp, tags or `[]`). -/
def timeTagsSearch : PyStr → Option (PyStr × PyStr)
  | [] => none
  | c :: rest =>
    let s := c :: rest
    let attempt : Option (PyStr × PyStr) := do
      let afterLead ←
        if "Reinforced until ".data.isPrefixOf s then some (s.drop 17)
        else if "Anchoring until ".data.isPrefixOf s then some (s.drop 16)
        else none
      let (ts, r) ← matchTimestamp19 '.' afterLead
      let w := r.takeWhile pyIsSpace
      let r2 := r.drop w.length
      if r2 = [] then some (ts, [])
      else if r2.head? = some '[' ∧ 2 ≤ r2.length ∧ r2.getLast? = some ']' then
        some (ts, r2)
      else none
    match attempt with
    | some v => some v
    | none => timeTagsSearch rest

/-- `re.search(r'(.*?)Reinforced until (\d{4}\.\d{2}\.\d{2} \d{2}:\d{2}:\d{2})(?:\s+(\[.*\]))?', input_text)`:
the prefix group cannot cross a newline, so the first occurrence of
`Reinforced until <dotted timestamp>` wins with the part of its own line
before it as prefix; the optional tag group takes everything from the `[`
after the whitespace run to the last `]` on the same line. Returns
(prefix, timestamp, tags or `[]`). -/
def reinforcedSearch (s : PyStr) : Option (PyStr × PyStr × PyStr) :=
  go [] s
where
  go (lineAcc : PyStr) : PyStr → Option (PyStr × PyStr × PyStr)
    | [] => none
    | c :: rest =>
      let here := c :: rest
      let attempt : Option (PyStr × PyStr) := do
        if "Reinforced until ".data.isPrefixOf here then
          let (ts, r) ← matchTimestamp19 '.' (here.drop 17)
          let w := r.takeWhile pyIsSpace
          let r2 := r.drop w.length
          if w ≠ [] ∧ r2.head? = some '[' then
            let seg := r2.takeWhile (fun d => d != '\n')
            let lastClose := (seg.reverse.takeWhile (fun d => d != ']')).length
            if seg.contains ']' then
              some (ts, seg.take (seg.length - lastClose))
            else some (ts, [])
          else some (ts, [])
        else none
      match attempt with
      | some (ts, tags) => some (lineAcc.reverse, ts, tags)
      | none =>
        if c = '\n' then go [] rest else go (c :: lineAcc) rest

/-- `re.match(r'([^\s]+)\s+(.+?)(?:\s+\d+\s*km)?$', prefix)` from the
single-line reinforced branch: leading non-whitespace token, whitespace,
then a lazy group whose remainder must be empty or ` <digits> km`.
Returns (system, structure). -/
def systemStructureMatch (s : PyStr) : Option (PyStr × PyStr) :=
  let g1 := s.takeWhile (fun c => !pyIsSpace c)
  let r1 := s.drop g1.length
  let w1 := r1.takeWhile pyIsSpace
  let rest := r1.drop w1.length
  if g1 ≠ [] ∧ w1 ≠ [] then
    (List.range rest.length).findSome? fun k =>
      let g2 := rest.take (k + 1)
      let tl := rest.drop (k + 1)
      if tl = [] then some (g1, g2)
      else
        let w := tl.takeWhile pyIsSpace
        let t1 := tl.drop w.length
        let ds := t1.takeWhile Char.isDigit
        let t2 := t1.drop ds.length
        let w2 := t2.takeWhile pyIsSpace
        if w ≠ [] ∧ ds ≠ [] ∧ t2.drop w2.length = "km".data then some (g1, g2)
        else none
  else none

/-- `re.match(r'^(\d{4}-\d{2}-\d{2} \d{2}:\d{2}:\d{2})\s+(.+)$', input.strip())`:
leading dashed timestamp, whitespace, then the description, which cannot
contain a newline (`.` does not match one and the input is stripped).
Returns (timestamp, description). -/
def directTimeMatch (s : PyStr) : Option (PyStr × PyStr) := do
  let (ts, r) ← matchTimestamp19 '-' s
  let w := r.takeWhile pyIsSpace
  let rest := r.drop w.length
  if w ≠ [] ∧ rest ≠ [] ∧ ¬ rest.contains '\n' then some (ts, rest) else none

/-- Days in a month, for `strptime` validation. -/
def daysInMonth (y m : Nat) : Nat :=
  if m = 2 then
    if y % 4 = 0 ∧ (y % 100 ≠ 0 ∨ y % 400 = 0) then 29 else 28
  else if m = 4 ∨ m = 6 ∨ m = 9 ∨ m = 11 then 30
  else 31

/-- `datetime.strptime(time_str, '%Y-%m-%d %H:%M:%S')` on a
`matchTimestamp19 '-'`-shaped string: read the fields and validate the
ranges (a `ValueError` is `none`). -/
def parseDashTimestamp (s : PyStr) : Option DT :=
  match matchTimestamp19 '-' s with
  | some (ts, rest) =>
    if rest = [] then
      let y := digitsToNat (ts.take 4)
      let mo := digitsToNat ((ts.drop 5).take 2)
      let d := digitsToNat ((ts.drop 8).take 2)
      let h := digitsToNat ((ts.drop 11).take 2)
      let mi := digitsToNat ((ts.drop 14).take 2)
      let sec := digitsToNat ((ts.drop 17).take 2)
      if 1 ≤ mo ∧ mo ≤ 12 ∧ 1 ≤ d ∧ d ≤ daysInMonth y mo ∧ h ≤ 23 ∧ mi ≤ 59
          ∧ sec ≤ 59 then
        some ⟨y, mo, d, h, mi, sec⟩
      else none
    else none
  | none => none

/-- Replace `.` by `-` (`time_str.replace('.', '-')`). -/
def dotsToDashes (s : PyStr) : PyStr := s.map (fun c => if c = '.' then '-' else c)

/-- Outcome of `TimerCommands.add`: a timer was added, or one of the
source's error replies was sent. -/
inductive AddResult where
  /-- `add_timer` ran: updated board, new timer, similar timers. -/
  | added (b : Board) (t : Timer) (similar : List Timer)
  /-- The multi-format usage message `HELP_TEXT` was sent. -/
  | helpText
  /-- "Could not parse system name from structure" was sent. -/
  | errNoSystem
  /-- "Invalid time format" was sent (reinforced-line time match failed). -/
  | errInvalidTime
  /-- "Invalid time format. ..." was sent (`strptime` raised). -/
  | errBadTimeValue
deriving DecidableEq, Repr

/-- The timer added by an `AddResult`, when one was. -/
def AddResult.newTimer? : AddResult → Option Timer
  | .added _ t _ => some t
  | _ => none

/-- `TimerCommands.add(ctx, input_text)` at clock reading `now`:
try the Mercenary Den grammar on the stripped input; else look for a
`Reinforced until` / `Anchoring until` line and run the multi-line
grammar (Customs Office, Ansiblex, Skyhook and plain-structure cases);
else the single-line reinforced grammar; else the direct-time grammar;
else reply with the usage message. On success parse the timestamp and
call `TimerBoard.add_timer`. -/
def timerCommandsAdd (tbl : List (PyStr × PyStr)) (now : Int) (b : Board)
    (input : PyStr) : AddResult :=
  match mercDenMatch (pyStrip input) with
  | some m =>
    let tag := m.tag.getD "[NC]".data
    let time := now + 3600 * (m.hours : Int) + 60 * (m.minutes : Int)
    let desc := m.system ++ " - ".data ++ m.planet ++ [' '] ++ tag
      ++ "[MERCENARY DEN]".data
    let r := addTimer tbl b time desc
    .added r.1 r.2.1 r.2.2
  | none =>
    let lines := splitOnChar '\n' input
    match lines.findIdx? (fun l =>
        containsSub "Reinforced until".data l || containsSub "Anchoring until".data l) with
    | some idx =>
      let firstLine := pyStrip (lines.headD [])
      let rLine := lines.getD idx []
      let sysStruct : Option (PyStr × PyStr) :=
        match customsOfficeMatch firstLine with
        | some (sys, planetNum) =>
          some (sys, "Customs Office Planet ".data ++ planetNum)
        | none =>
          match systemExtract firstLine with
          | none => none
          | some sysRaw =>
            let system := pyStrip sysRaw
            let isAnsiblex := containsSub "»".data firstLine
              || containsSub "[Ansiblex]".data rLine
            let isSkyhook := containsSub "Orbital Skyhook".data firstLine
            let structure_name :=
              if isAnsiblex then pyStrip firstLine
              else if isSkyhook then
                match skyhookPlanetSearch firstLine with
                | some p => "Orbital Skyhook Planet ".data ++ p
                | none => "Orbital Skyhook".data
              else
                let s1 := pyStrip (firstLine.drop system.length)
                if s1.head? = some '-' then pyStrip (s1.drop 1) else s1
            some (system, structure_name)
      match sysStruct with
      | none => .errNoSystem
      | some (system, structure_name) =>
        match timeTagsSearch rLine with
        | none => .errInvalidTime
        | some (ts, tags) =>
          let time_str := dotsToDashes ts
          let desc := system ++ " - ".data ++ structure_name
            ++ (if tags ≠ [] then [' '] ++ tags else [])
          match parseDashTimestamp time_str with
          | none => .errBadTimeValue
          | some dt =>
            let r := addTimer tbl b (dtToSec dt) desc
            .added r.1 r.2.1 r.2.2
    | none =>
      match reinforcedSearch input with
      | some (pre, ts, tags) =>
        let time_str := dotsToDashes ts
        let desc :=
          match systemStructureMatch (pyStrip pre) with
          | some (system, structName) =>
            system ++ " - ".data ++ structName ++ [' '] ++ tags
          | none => input
        match parseDashTimestamp time_str with
        | none => .errBadTimeValue
        | some dt =>
          let r := addTimer tbl b (dtToSec dt) desc
          .added r.1 r.2.1 r.2.2
      | none =>
        match directTimeMatch (pyStrip input) with
        | none => .helpText
        | some (ts, desc) =>
          match parseDashTimestamp ts with
          | none => .errBadTimeValue
          | some dt =>
            let r := addTimer tbl b (dtToSec dt) desc
            .added r.1 r.2.1 r.2.2

/-! ## Sov backfill (`backfill_sov_timers` in
`src/bot/cogs/timer_commands.py`) -/

/-- `ALERT_REGIONS` from `timer_commands.py`. -/
def ALERT_REGIONS : List PyStr :=
  ["THE SPIRE", "MALPAIS", "OUTER PASSAGE", "OASA", "ETHERIUM REACH"].map String.data

/-- Case-insensitive prefix test (literal text under `re.IGNORECASE`). -/
def ciIsPrefixOf (pat s : PyStr) : Bool :=
  (pyUpper pat).isPrefixOf (pyUpper s)

/-- `re.search(r'Infrastructure Hub.*?in \[([A-Z0-9-]+)\][^\n]*?has been reinforced', content, re.IGNORECASE)`.
The lazy gaps cannot cross newlines; under `IGNORECASE` the class
`[A-Z0-9-]` also matches lowercase (`isSysChar`). Scans for the first
`Infrastructure Hub` from which an `in [<system>]` and a later
`has been reinforced` can be reached on the same line. -/
def sovIhubMatch (s : PyStr) : Option PyStr :=
  scanStart s
where
  scanReinf : PyStr → Bool
    | [] => false
    | c :: rest =>
      if c = '\n' then false
      else ciIsPrefixOf "has been reinforced".data (c :: rest) || scanReinf rest
  scanIn : PyStr → Option PyStr
    | [] => none
    | c :: rest =>
      if c = '\n' then none
      else if ciIsPrefixOf "in [".data (c :: rest) then
        let afterBr := (c :: rest).drop 4
        let run := afterBr.takeWhile isSysChar
        let r2 := afterBr.drop run.length
        if run ≠ [] ∧ r2.head? = some ']' ∧ scanReinf (r2.drop 1) then some run
        else scanIn rest
      else scanIn rest
  scanStart : PyStr → Option PyStr
    | [] => none
    | c :: rest =>
      if ciIsPrefixOf "Infrastructure Hub".data (c :: rest) then
        match scanIn ((c :: rest).drop 18) with
        | some sys => some sys
        | none => scanStart rest
      else scanStart rest

/-- Fixed-shape 16-character timestamp `\d{4}-\d{2}-\d{2} \d{2}:\d{2}`. -/
def matchTimestamp16 (s : PyStr) : Option PyStr :=
  let ts := s.take 16
  let shape : List (Char → Bool) :=
    [Char.isDigit, Char.isDigit, Char.isDigit, Char.isDigit, (· = '-'),
     Char.isDigit, Char.isDigit, (· = '-'), Char.isDigit, Char.isDigit,
     (· = ' '), Char.isDigit, Char.isDigit, (· = ':'), Char.isDigit,
     Char.isDigit]
  if ts.length = 16 ∧ (ts.zip shape).all (fun p => p.2 p.1) then some ts
  else none

/-- `re.search(r'(\d{4}-\d{2}-\d{2} \d{2}:\d{2})', content)`: the first
position where the timestamp shape matches. -/
def findTimestamp16 : PyStr → Option PyStr
  | [] => none
  | c :: rest =>
    match matchTimestamp16 (c :: rest) with
    | some ts => some ts
    | none => findTimestamp16 rest

/-- `datetime.strptime(timer_time_str, "%Y-%m-%d %H:%M")` with range
validation (seconds are zero). -/
def parseDashTimestamp16 (s : PyStr) : Option DT :=
  match matchTimestamp16 s with
  | some ts =>
    let y := digitsToNat (ts.take 4)
    let mo := digitsToNat ((ts.drop 5).take 2)
    let d := digitsToNat ((ts.drop 8).take 2)
    let h := digitsToNat ((ts.drop 11).take 2)
    let mi := digitsToNat ((ts.drop 14).take 2)
    if 1 ≤ mo ∧ mo ≤ 12 ∧ 1 ≤ d ∧ d ≤ daysInMonth y mo ∧ h ≤ 23 ∧ mi ≤ 59 then
      some ⟨y, mo, d, h, mi, 0⟩
    else none
  | none => none

/-- `re.search(r'\[' + re.escape(system) + r'\][^\n]*?\(([^)]+)\)', content)`:
after the literal `[system]`, the first `(` on the same line whose
following non-`)` run (at least one character) is closed by `)`. -/
def sovRegionSearch (sys : PyStr) (s : PyStr) : Option PyStr :=
  scanBracket s
where
  scanParen : PyStr → Option PyStr
    | [] => none
    | c :: rest =>
      if c = '\n' then none
      else if c = '(' then
        let inner := rest.takeWhile (fun d => d != ')')
        if inner ≠ [] ∧ (rest.drop inner.length).head? = some ')' then some inner
        else scanParen rest
      else scanParen rest
  scanBracket : PyStr → Option PyStr
    | [] => none
    | c :: rest =>
      if (['['] ++ sys ++ [']']).isPrefixOf (c :: rest) then
        match scanParen ((c :: rest).drop (sys.length + 2)) with
        | some r => some r
        | none => scanBracket rest
      else scanBracket rest

/-- The running counters of a backfill pass. -/
structure BackfillResult where
  board : Board
  added : Nat
  already : Nat
  failed : Nat
deriving DecidableEq, Repr

/-- One message of the `backfill_sov_timers` loop: match the reinforcement
pattern, find and parse the timestamp, skip already-past timers, build the
`[NC][IHUB] 🛡️` tags (with the alert emoji when the extracted region is
watched), skip when a stored timer has the same system (case-insensitive),
structure name equal to `"INFRASTRUCTURE HUB"` (case-insensitive) and a
time within 60 seconds, and otherwise call `add_timer`. -/
def sovBackfillStep (tbl : List (PyStr × PyStr)) (now : Int)
    (st : BackfillResult) (content : PyStr) : BackfillResult :=
  match sovIhubMatch content with
  | none => st
  | some sys =>
    match findTimestamp16 content with
    | none => st
    | some tsStr =>
      match parseDashTimestamp16 tsStr with
      | none => { st with failed := st.failed + 1 }
      | some dt =>
        let timer_time := dtToSec dt
        if timer_time < now then st
        else
          let region := (sovRegionSearch sys content).map (fun r => pyUpper (pyStrip r))
          let alertEmoji := match region with
            | some r => if ALERT_REGIONS.contains r then " 🚨".data else []
            | none => []
          let tags := "[NC][IHUB] 🛡️".data ++ alertEmoji
          let desc := sys ++ " - Infrastructure Hub ".data ++ tags
          let dup := st.board.timers.any (fun t =>
            pyUpper t.system == pyUpper sys
            && pyUpper t.structure_name == "INFRASTRUCTURE HUB".data
            && decide ((t.time - timer_time).natAbs < 60))
          if dup then { st with already := st.already + 1 }
          else
            let r := addTimer tbl st.board timer_time desc
            { st with
              board := r.1
              added := st.added + 1 }

/-- `backfill_sov_timers` over a window of historical message texts,
against the given board. -/
def backfillSov (tbl : List (PyStr × PyStr)) (now : Int) (b : Board)
    (msgs : List PyStr) : BackfillResult :=
  msgs.foldl (sovBackfillStep tbl now) { board := b, added := 0, already := 0, failed := 0 }

/-! ## Concrete scenario inputs -/

/-- The reference clock reading `2024-01-01T00:00:00Z` used by the spec
scenarios. -/
def scenarioNow : Int := dtToSec ⟨2024, 1, 1, 0, 0, 0⟩

/-- The three-line reinforced `!add` input of the C6 scenario. -/
def c6Input : PyStr :=
  "4M-QXK - PRIVATE MATSUNOMI P4M3\n38.4 AU\nReinforced until 2024.01.01 01:08:33 [HORDE][ATHANOR][HULL]".data

/-- The timer the C6 scenario produces. -/
def c6Timer : Timer :=
  { time := dtToSec ⟨2024, 1, 1, 1, 8, 33⟩
    description := "4M-QXK - PRIVATE MATSUNOMI P4M3 [HORDE][ATHANOR][HULL]".data
    timer_id := STARTING_TIMER_ID
    system := "4M-QXK".data
    structure_name := "PRIVATE MATSUNOMI P4M3".data
    notes := "[HORDE][ATHANOR][HULL]".data
    region := "Unknown".data }

/-- The Mercenary Den `!add` input of the C7 scenario (it is also the
example given in the command's own help text). -/
def c7Input : PyStr := "Merc Den Jita Planet I 2 30 [NC]".data

/-- A sov-channel reinforcement message for the C9 backfill runs. -/
def c9Msg : PyStr :=
  "Infrastructure Hub in [X-7OMU] has been reinforced, timer at 2030-01-02 03:04".data

/-- First backfill pass over the C9 window. -/
def c9Run1 : BackfillResult := backfillSov [] scenarioNow initBoard [c9Msg]

/-- Second backfill pass over the same window with the same clock. -/
def c9Run2 : BackfillResult := backfillSov [] scenarioNow c9Run1.board [c9Msg]

/-- An IHUB timer (description carries `[IHUB]` and the shield emoji), the
failing input of C5. -/
def c5Timer : Timer :=
  { time := dtToSec ⟨2030, 1, 2, 3, 4, 0⟩
    description := "X-7OMU - Infrastructure Hub [NC][IHUB] 🛡️".data
    timer_id := 1234
    system := "X-7OMU".data
    structure_name := "Infrastructure Hub [NC][IHUB] 🛡️".data
    notes := []
    region := "Oasa".data }

/-- A timer 3660 seconds (61 minutes) in the future of clock reading 0,
the C3 counterexample input. -/
def c3Timer : Timer :=
  { time := 3660, description := "A - B".data, timer_id := 1000,
    system := "A".data, structure_name := "B".data, notes := [], region := [] }

/-- A board holding only `c3Timer`, with no filtered regions. -/
def c3Board : Board := { timers := [c3Timer], next_id := 1001, filtered_regions := [] }

/-- A timer in the region `Oasa`, used as a concrete filtered timer. -/
def c8Timer : Timer :=
  { time := 100, description := "A - B".data, timer_id := 1001,
    system := "A".data, structure_name := "B".data, notes := [],
    region := "Oasa".data }

/-- A board holding `c8Timer` (region `Oasa`) and `c3Timer` (empty
region), with `Oasa` filtered. -/
def c8Board : Board :=
  { timers := [c8Timer, c3Timer], next_id := 1002,
    filtered_regions := ["Oasa".data] }

/-- A timer whose region is a single space, exactly at the 60-minute
alert window of clock reading 0 — the C8 counterexample input. -/
def c8wTimer : Timer :=
  { time := 3600, description := "A - B".data, timer_id := 1005,
    system := "A".data, structure_name := "B".data, notes := [],
    region := " ".data }

/-- A board holding only `c8wTimer`, with the whitespace-only region
itself in the filtered set. -/
def c8wBoard : Board :=
  { timers := [c8wTimer], next_id := 1006, filtered_regions := [" ".data] }

/-- Flatten a list of timer lines the way the accumulation loop appends
them to the current message: each line followed by the newline the loop
adds. -/
def linesFlat (ls : List PyStr) : PyStr := (ls.map (fun l => l ++ ['\n'])).join

/-- Shape of every `Timer.to_string` output: nonempty, starting with a
non-whitespace character (a backtick, or a tilde when struck through)
that differs from the header's first character `C`. -/
abbrev GoodLine (l : PyStr) : Prop :=
  ∃ c rest, l = c :: rest ∧ pyIsSpace c = false ∧ c ≠ 'C'

/-- Loop invariant of `splitLoop`: the current message string is the
header followed by its lines, or (after an overflow reset) just its
(nonempty) lines. -/
abbrev CurOk (ts : PyStr) (cur : PyStr × List PyStr) : Prop :=
  cur.1 = pyHeader ts ++ linesFlat cur.2 ∨ (cur.2 ≠ [] ∧ cur.1 = linesFlat cur.2)

/-- A single 1960-character timer line, the C4 counterexample input (as
produced by a timer whose structure name is long enough). -/
def c4LongLine : PyStr := List.replicate 1960 'a'

/-! ## Theorems -/

set_option maxRecDepth 20000

/-- C6: submitting the three-line reinforced input
`"4M-QXK - PRIVATE MATSUNOMI P4M3\n38.4 AU\nReinforced until 2024.01.01 01:08:33 [HORDE][ATHANOR][HULL]"`
to the `!add` command produces a timer with system `4M-QXK`, structure
name `PRIVATE MATSUNOMI P4M3`, time `2024-01-01 01:08:33` UTC and tag
list `[HORDE][ATHANOR][HULL]`. -/
theorem add_scenario_reinforced_multiline :
    (timerCommandsAdd [] scenarioNow initBoard c6Input).newTimer? = some c6Timer := by
  decide

/-- C7: the Mercenary Den scenario input
`"Merc Den Jita Planet I 2 30 [NC]"` — the example given in the command's
own help text — is rejected by `TimerCommands.add`, which falls through
every grammar and replies with the usage message instead of adding a timer
at `referenceTime + 2h30m`: the regex's `[A-Z0-9-]+` system group cannot
match the mixed-case `Jita`, and the pattern leaves no room for the
separate `Planet I` tokens. -/
theorem merc_den_scenario_rejected :
    timerCommandsAdd [] scenarioNow initBoard c7Input = AddResult.helpText := by
  decide

/-- C9: running the sov backfill twice over the same one-message window
with the same clock is not idempotent. `add_timer` re-parses the
description `"X-7OMU - Infrastructure Hub [NC][IHUB] 🛡️"`, which does not
end in `]`, so the whole tail `"Infrastructure Hub [NC][IHUB] 🛡️"` is
stored as the structure name; the second run's duplicate check compares
that against `"INFRASTRUCTURE HUB"`, never matches, and re-adds the timer
(`added = 1`, store grows to two copies). -/
theorem sov_backfill_second_run_readds :
    c9Run1.added = 1 ∧ c9Run1.board.timers.length = 1 ∧
    c9Run2.added = 1 ∧ c9Run2.already = 0 ∧ c9Run2.board.timers.length = 2 := by
  decide

/-- C5: evaluating `Timer.to_string` at the failing input `c5Timer` (an
IHUB timer, description containing `[IHUB]` and the shield emoji): the
rendered line does not contain the timer's id `(1234)` — the
`" (timer_id)"` append sits inside the standard-format branch only — and
the line is not struck through since the timer is in the future. -/
theorem to_string_ihub_line_lacks_id :
    containsSub "(1234)".data (timerToString scenarioNow c5Timer) = false ∧
    containsSub "🛡️".data (timerToString scenarioNow c5Timer) = true ∧
    containsSub "~~".data (timerToString scenarioNow c5Timer) = false := by
  decide

/-- C3 counterexample: a non-filtered timer 3660 seconds (61 minutes)
ahead of the clock lies inside the claim's ±1-minute window around the
60-minute threshold, yet a `check_timers` cycle emits nothing for it —
the upcoming-timers filter caps at 3600 seconds, so the code's window is
`[59, 60]` minutes, not `[59, 61]`. -/
theorem sixty_minute_window_counterexample :
    c3Timer.time - 0 = 3660 ∧
    checkCycle 0 c3Board initAlertState = initAlertState := by
  decide

/-! ### Sorting and store lemmas -/

theorem insertByTime_length (t : Timer) (l : List Timer) :
    (insertByTime t l).length = l.length + 1 := by
  induction l with
  | nil => rfl
  | cons x xs ih =>
    simp only [insertByTime]
    split
    · simp
    · simp [ih]

theorem mem_insertByTime (a t : Timer) (l : List Timer) :
    a ∈ insertByTime t l ↔ a = t ∨ a ∈ l := by
  induction l with
  | nil => simp [insertByTime]
  | cons x xs ih =>
    simp only [insertByTime]
    split
    · simp
    · simp [ih]
      tauto

theorem foldl_insertByTime_length (l acc : List Timer) :
    (l.foldl (fun acc t => insertByTime t acc) acc).length = acc.length + l.length := by
  induction l generalizing acc with
  | nil => simp
  | cons x xs ih => simp [ih, insertByTime_length]; omega

theorem sortTimers_length (l : List Timer) : (sortTimers l).length = l.length := by
  simp [sortTimers, foldl_insertByTime_length]

theorem mem_foldl_insertByTime (a : Timer) (l acc : List Timer) :
    a ∈ l.foldl (fun acc t => insertByTime t acc) acc ↔ a ∈ acc ∨ a ∈ l := by
  induction l generalizing acc with
  | nil => simp
  | cons x xs ih =>
    simp only [List.foldl_cons, ih, mem_insertByTime, List.mem_cons]
    tauto

theorem mem_sortTimers (a : Timer) (l : List Timer) :
    a ∈ sortTimers l ↔ a ∈ l := by
  simp [sortTimers, mem_foldl_insertByTime]

theorem addTimer_next_id (tbl : List (PyStr × PyStr)) (b : Board) (time : Int)
    (desc : PyStr) : (addTimer tbl b time desc).1.next_id = b.next_id + 1 := rfl

theorem postInit_timer_id (tbl : List (PyStr × PyStr)) (t : Timer) :
    (postInit tbl t).timer_id = t.timer_id := by
  rw [postInit]
  repeat' split
  all_goals rfl

theorem addTimer_new_id (tbl : List (PyStr × PyStr)) (b : Board) (time : Int)
    (desc : PyStr) : (addTimer tbl b time desc).2.1.timer_id = b.next_id := by
  show (postInit tbl _).timer_id = b.next_id
  rw [postInit_timer_id]

theorem addTimer_length (tbl : List (PyStr × PyStr)) (b : Board) (time : Int)
    (desc : PyStr) :
    (addTimer tbl b time desc).1.timers.length = b.timers.length + 1 := by
  show (sortTimers (b.timers ++ [_])).length = _
  simp [sortTimers_length]

theorem removeTimer_next_id (b : Board) (i : Nat) :
    (removeTimer b i).1.next_id = b.next_id := by
  unfold removeTimer
  cases b.timers.find? (fun t => t.timer_id == i) <;> rfl

theorem runOps_inv (tbl : List (PyStr × PyStr)) (ops : List StoreOp) :
    ∀ (b : Board) (ids : List Nat),
      STARTING_TIMER_ID ≤ b.next_id →
      ids.Chain' (· < ·) →
      (∀ i ∈ ids, STARTING_TIMER_ID ≤ i ∧ i < b.next_id) →
      (ops.foldl (applyOp tbl) (b, ids)).2.Chain' (· < ·) ∧
      (∀ i ∈ (ops.foldl (applyOp tbl) (b, ids)).2,
        STARTING_TIMER_ID ≤ i ∧ i < (ops.foldl (applyOp tbl) (b, ids)).1.next_id) ∧
      STARTING_TIMER_ID ≤ (ops.foldl (applyOp tbl) (b, ids)).1.next_id := by
  induction ops with
  | nil =>
    intro b ids h1 h2 h3
    exact ⟨h2, h3, h1⟩
  | cons op rest ih =>
    intro b ids h1 h2 h3
    simp only [List.foldl_cons]
    cases op with
    | add time desc =>
      have happ : applyOp tbl (b, ids) (.add time desc)
          = ((addTimer tbl b time desc).1, ids ++ [b.next_id]) := by
        simp [applyOp, addTimer_new_id]
      rw [happ]
      apply ih
      · rw [addTimer_next_id]; omega
      · rw [List.chain'_append]
        refine ⟨h2, List.chain'_singleton _, ?_⟩
        intro x hx y hy
        simp at hy
        subst hy
        exact ((h3 x (List.mem_of_mem_getLast? hx)).2)
      · intro i hi
        rw [addTimer_next_id]
        rcases List.mem_append.mp hi with h | h
        · have := h3 i h; omega
        · simp at h; omega
    | remove j =>
      have happ : applyOp tbl (b, ids) (.remove j) = ((removeTimer b j).1, ids) := rfl
      rw [happ]
      apply ih
      · rw [removeTimer_next_id]; exact h1
      · exact h2
      · intro i hi
        rw [removeTimer_next_id]
        exact h3 i hi

/-- C1: over any sequence of `add_timer` / `remove_timer` operations from
a fresh store, every `add_timer` call inserts exactly one timer (never
rejecting, even when similar timers exist) and returns the new timer —
whose id is the current counter value — together with the list of similar
timers; and the assigned ids are strictly increasing across the whole
sequence and never below the floor `STARTING_TIMER_ID = 1000`, including
after removals. -/
theorem store_ids_monotone_and_add_total (tbl : List (PyStr × PyStr))
    (ops : List StoreOp) :
    (runOps tbl ops).2.Chain' (· < ·) ∧
    (∀ i ∈ (runOps tbl ops).2, STARTING_TIMER_ID ≤ i) ∧
    (∀ (b : Board) (time : Int) (desc : PyStr),
      (addTimer tbl b time desc).1.timers.length = b.timers.length + 1 ∧
      (addTimer tbl b time desc).2.1 ∈ (addTimer tbl b time desc).1.timers ∧
      (addTimer tbl b time desc).2.1.timer_id = b.next_id ∧
      (addTimer tbl b time desc).2.2
        = b.timers.filter (fun t => isSimilar t (addTimer tbl b time desc).2.1)) := by
  have hinv := runOps_inv tbl ops initBoard [] (le_refl _) (List.chain'_nil)
    (by intro i hi; cases hi)
  refine ⟨hinv.1, fun i hi => (hinv.2.1 i hi).1, ?_⟩
  intro b time desc
  refine ⟨addTimer_length tbl b time desc, ?_, addTimer_new_id tbl b time desc, rfl⟩
  show (addTimer tbl b time desc).2.1 ∈ sortTimers (b.timers ++ [(addTimer tbl b time desc).2.1])
  rw [mem_sortTimers]
  simp

/-- C2: an expiry sweep at clock `now` with configured window
`expiry_time` minutes removes exactly the timers with
`now - time > expiry_time` minutes, keeps exactly those with
`now - time ≤ expiry_time` minutes, returns exactly the removed ones, and
touches nothing else on the board. -/
theorem remove_expired_exact (b : Board) (now expiry_time : Int) (t : Timer) :
    (t ∈ (removeExpired b now expiry_time).2 ↔
      t ∈ b.timers ∧ expiry_time * 60 < now - t.time) ∧
    (t ∈ (removeExpired b now expiry_time).1.timers ↔
      t ∈ b.timers ∧ now - t.time ≤ expiry_time * 60) ∧
    (removeExpired b now expiry_time).1.next_id = b.next_id ∧
    (removeExpired b now expiry_time).1.filtered_regions = b.filtered_regions := by
  refine ⟨?_, ?_, rfl, rfl⟩
  · show t ∈ b.timers.filter _ ↔ _
    rw [List.mem_filter]
    simp only [decide_eq_true_eq]
    constructor
    · rintro ⟨h1, h2⟩; exact ⟨h1, by omega⟩
    · rintro ⟨h1, h2⟩; exact ⟨h1, by omega⟩
  · show t ∈ b.timers.filter _ ↔ _
    rw [List.mem_filter]
    simp only [decide_eq_true_eq]
    constructor
    · rintro ⟨h1, h2⟩; exact ⟨h1, by omega⟩
    · rintro ⟨h1, h2⟩; exact ⟨h1, by omega⟩

/-! ### Region filtering -/

theorem filterCmd_timers (b : Board) : (filterCmd b).timers = b.timers := by
  show (regionsToFilter.foldl _ b).timers = b.timers
  generalize regionsToFilter = rs
  induction rs generalizing b with
  | nil => rfl
  | cons r rest ih =>
    simp only [List.foldl_cons]
    rw [ih]
    split <;> rfl

theorem unfilterCmd_timers (b : Board) : (unfilterCmd b).timers = b.timers := by
  show (regionsToFilter.foldl _ b).timers = b.timers
  generalize (b.filtered_regions.map pyUpper) = us
  generalize regionsToFilter = rs
  induction rs generalizing b with
  | nil => rfl
  | cons r rest ih =>
    simp only [List.foldl_cons]
    rw [ih]
    split <;> rfl

theorem isFilteredAlert_of_mem (fr : List PyStr) (t : Timer) (hr : t.region ≠ [])
    (hb : pyStrip (pyUpper t.region) ≠ [])
    (hmem : pyUpper t.region ∈ fr.map pyUpper) :
    isFilteredAlert fr t = true := by
  rw [isFilteredAlert, if_neg hr]
  rcases List.mem_map.mp hmem with ⟨r, hrmem, hre⟩
  have hmem2 : pyStrip (pyUpper t.region) ∈ fr.map (fun r => pyStrip (pyUpper r)) :=
    List.mem_map.mpr ⟨r, hrmem, by rw [hre]⟩
  rw [Bool.and_eq_true]
  exact ⟨decide_eq_true hb, List.elem_eq_true_of_mem hmem2⟩

/-- C8 (amended): a timer whose region (compared case-insensitively) is
in the filtered-region set is excluded from the rendered board; the alert
loop additionally skips it when the region is non-blank after stripping —
the alert check strips the uppercased region and treats an empty result
as falsy, so a whitespace-only region is excluded from rendering yet still
alerted (the amendment the counterexample forces). When skipped, the loop
body leaves the alert state, so every flag, untouched and emits nothing;
and the `filter` and `unfilter` commands never remove a timer from the
stored collection (nor does rendering, a pure function of the board here
as in the source, which only reads `self.timers`): filtering is a
projection, never a deletion. -/
theorem region_filter_is_projection (b : Board) (t : Timer) (now : Int)
    (st : AlertState) (hr : t.region ≠ [])
    (hb : pyStrip (pyUpper t.region) ≠ [])
    (hmem : pyUpper t.region ∈ b.filtered_regions.map pyUpper) :
    t ∉ renderTimers b ∧
    isFilteredAlert b.filtered_regions t = true ∧
    alertLoopBody b.filtered_regions now st t = st ∧
    (filterCmd b).timers = b.timers ∧
    (unfilterCmd b).timers = b.timers := by
  have hfa := isFilteredAlert_of_mem b.filtered_regions t hr hb hmem
  refine ⟨?_, hfa, ?_, filterCmd_timers b, unfilterCmd_timers b⟩
  · intro hmem'
    have hp := (List.mem_filter.mp hmem').2
    rw [if_neg hr] at hp
    have hc : (b.filtered_regions.map pyUpper).contains (pyUpper t.region) = true :=
      List.elem_eq_true_of_mem hmem
    rw [hc] at hp
    simp at hp
  · rw [alertLoopBody, if_pos hfa]

/-- Witness for C8 at a concrete board: the `Oasa` timer is excluded from
rendering and skipped by the alert loop while `filter`/`unfilter` keep the
timer list intact. -/
theorem region_filter_is_projection_witness :
    c8Timer ∉ renderTimers c8Board ∧
    isFilteredAlert c8Board.filtered_regions c8Timer = true ∧
    alertLoopBody c8Board.filtered_regions 0 initAlertState c8Timer = initAlertState ∧
    (filterCmd c8Board).timers = c8Board.timers ∧
    (unfilterCmd c8Board).timers = c8Board.timers :=
  region_filter_is_projection c8Board c8Timer 0 initAlertState (by decide) (by decide)
    (by decide)

/-- Counterexample to C8 as stated: a timer whose region is a single
space, with that same string in the filtered set, satisfies the claim's
membership condition and is excluded from rendering — yet the alert loop
does NOT skip it: `is_filtered` strips the uppercased region first, the
stripped result is the falsy empty string, and the 60-minute warning
fires anyway. -/
theorem whitespace_region_alerted_counterexample :
    pyUpper c8wTimer.region ∈ c8wBoard.filtered_regions.map pyUpper ∧
    c8wTimer.region ≠ [] ∧
    c8wTimer ∉ renderTimers c8wBoard ∧
    isFilteredAlert c8wBoard.filtered_regions c8wTimer = false ∧
    (checkCycle 0 c8wBoard initAlertState).alerts = [(true, 1005)] ∧
    (checkCycle 0 c8wBoard initAlertState).sixty = [1005] := by decide

/-- C10: a timer whose region field is the empty string is rendered on
the board whatever the filtered-region set is, and the alert loop's
filtered-region check never skips it (its `timer_region_upper` is `None`):
region filtering can only exclude timers that carry a nonempty region. -/
theorem empty_region_timer_never_filtered (b : Board) (t : Timer)
    (ht : t ∈ b.timers) (hr : t.region = []) :
    t ∈ renderTimers b ∧ isFilteredAlert b.filtered_regions t = false := by
  constructor
  · rw [renderTimers]
    rw [List.mem_filter, mem_sortTimers]
    exact ⟨ht, by rw [if_pos hr]⟩
  · rw [isFilteredAlert, if_pos hr]

/-- Witness for C10 at a concrete board whose filtered set contains the
only nonempty region in play: the empty-region timer is still rendered
and not alert-skipped. -/
theorem empty_region_timer_never_filtered_witness :
    c3Timer ∈ renderTimers c8Board ∧
    isFilteredAlert c8Board.filtered_regions c3Timer = false :=
  empty_region_timer_never_filtered c8Board c3Timer (by decide) (by decide)

/-! ### Alert-loop lemmas -/

theorem exists_mem_append_singleton {α : Type} (l : List α) (a : α) (p : α → Prop) :
    (∃ x ∈ l ++ [a], p x) ↔ (∃ x ∈ l, p x) ∨ p a := by
  constructor
  · rintro ⟨x, hx, hp⟩
    rcases List.mem_append.mp hx with h | h
    · exact Or.inl ⟨x, h, hp⟩
    · simp at h; subst h; exact Or.inr hp
  · rintro (⟨x, hx, hp⟩ | hp)
    · exact ⟨x, List.mem_append.mpr (Or.inl hx), hp⟩
    · exact ⟨a, List.mem_append.mpr (Or.inr (by simp)), hp⟩

theorem checkCycle_singleton (now : Int) (t : Timer) (nid : Nat) (fr : List PyStr)
    (st : AlertState) :
    checkCycle now ⟨[t], nid, fr⟩ st =
      if now < t.time ∧ t.time - now ≤ 3600 then alertLoopBody fr now st t else st := by
  by_cases h : now < t.time ∧ t.time - now ≤ 3600
  · rw [if_pos h]
    simp only [checkCycle, List.filter_cons, List.filter_nil, decide_eq_true_eq]
    rw [if_pos (by omega)]
    rfl
  · rw [if_neg h]
    simp only [checkCycle, List.filter_cons, List.filter_nil, decide_eq_true_eq]
    rw [if_neg (by omega)]
    rfl

theorem alertLoopBody_effect (fr : List PyStr) (now : Int) (st : AlertState)
    (t : Timer) (hf : isFilteredAlert fr t = false) :
    alertLoopBody fr now st t =
      if 3540 ≤ t.time - now ∧ t.time - now ≤ 3600 ∧ t.timer_id ∉ st.sixty then
        { st with alerts := st.alerts ++ [(true, t.timer_id)], sixty := st.sixty ++ [t.timer_id] }
      else if -60 ≤ t.time - now ∧ t.time - now ≤ 60 ∧ t.timer_id ∉ st.started then
        { st with alerts := st.alerts ++ [(false, t.timer_id)], started := st.started ++ [t.timer_id] }
      else st := by
  rw [alertLoopBody, hf]
  simp

theorem checkCycle_singleton_effect (now : Int) (t : Timer) (nid : Nat)
    (fr : List PyStr) (st : AlertState) (hf : isFilteredAlert fr t = false) :
    checkCycle now ⟨[t], nid, fr⟩ st =
      if 3540 ≤ t.time - now ∧ t.time - now ≤ 3600 ∧ t.timer_id ∉ st.sixty then
        { st with alerts := st.alerts ++ [(true, t.timer_id)], sixty := st.sixty ++ [t.timer_id] }
      else if 0 < t.time - now ∧ t.time - now ≤ 60 ∧ t.timer_id ∉ st.started then
        { st with alerts := st.alerts ++ [(false, t.timer_id)], started := st.started ++ [t.timer_id] }
      else st := by
  rw [checkCycle_singleton, ]
  by_cases hup : now < t.time ∧ t.time - now ≤ 3600
  · rw [if_pos hup, alertLoopBody_effect fr now st t hf]
    by_cases h1 : 3540 ≤ t.time - now ∧ t.time - now ≤ 3600 ∧ t.timer_id ∉ st.sixty
    · rw [if_pos h1, if_pos h1]
    · rw [if_neg h1, if_neg h1]
      have hiff : (-60 ≤ t.time - now ∧ t.time - now ≤ 60 ∧ t.timer_id ∉ st.started)
          ↔ (0 < t.time - now ∧ t.time - now ≤ 60 ∧ t.timer_id ∉ st.started) := by
        constructor
        · rintro ⟨a, b, c⟩
          refine ⟨?_, b, c⟩
          omega
        · rintro ⟨a, b, c⟩
          refine ⟨?_, b, c⟩
          omega
      rw [if_congr hiff rfl rfl]
  · rw [if_neg hup]
    have hn1 : ¬ (3540 ≤ t.time - now ∧ t.time - now ≤ 3600 ∧ t.timer_id ∉ st.sixty) := by
      rintro ⟨a, b, -⟩
      exact hup ⟨by omega, b⟩
    have hn2 : ¬ (0 < t.time - now ∧ t.time - now ≤ 60 ∧ t.timer_id ∉ st.started) := by
      rintro ⟨a, b, -⟩
      exact hup ⟨by omega, by omega⟩
    rw [if_neg hn1, if_neg hn2]

theorem count_append_singleton_self (l : List (Bool × Nat)) (a : Bool × Nat) :
    (l ++ [a]).count a = l.count a + 1 := by
  simp

theorem count_append_singleton_ne (l : List (Bool × Nat)) (a b : Bool × Nat)
    (h : ¬ b = a) : (l ++ [b]).count a = l.count a := by
  have hz : List.count a [b] = 0 := by
    rw [List.count_eq_zero]
    simp
    exact fun he => h he.symm
  rw [List.count_append, hz, Nat.add_zero]

theorem runCycles_singleton_state (t : Timer) (nid : Nat) (fr : List PyStr)
    (hf : isFilteredAlert fr t = false) (nows : List Int) :
    ((runCycles nows ⟨[t], nid, fr⟩ initAlertState).sixty
      = if ∃ now ∈ nows, 3540 ≤ t.time - now ∧ t.time - now ≤ 3600
        then [t.timer_id] else []) ∧
    ((runCycles nows ⟨[t], nid, fr⟩ initAlertState).started
      = if ∃ now ∈ nows, 0 < t.time - now ∧ t.time - now ≤ 60
        then [t.timer_id] else []) ∧
    ((runCycles nows ⟨[t], nid, fr⟩ initAlertState).alerts.count (true, t.timer_id)
      = if ∃ now ∈ nows, 3540 ≤ t.time - now ∧ t.time - now ≤ 3600 then 1 else 0) ∧
    ((runCycles nows ⟨[t], nid, fr⟩ initAlertState).alerts.count (false, t.timer_id)
      = if ∃ now ∈ nows, 0 < t.time - now ∧ t.time - now ≤ 60 then 1 else 0) := by
  induction nows using List.reverseRecOn with
  | nil => simp [runCycles, initAlertState]
  | append_singleton ns now ih =>
    obtain ⟨ih1, ih2, ih3, ih4⟩ := ih
    have hrun : runCycles (ns ++ [now]) ⟨[t], nid, fr⟩ initAlertState
        = checkCycle now ⟨[t], nid, fr⟩ (runCycles ns ⟨[t], nid, fr⟩ initAlertState) := by
      simp [runCycles]
    set st := runCycles ns ⟨[t], nid, fr⟩ initAlertState with hst
    rw [hrun, checkCycle_singleton_effect now t nid fr st hf]
    simp only [exists_mem_append_singleton]
    by_cases hw60 : 3540 ≤ t.time - now ∧ t.time - now ≤ 3600
    · have hw0 : ¬ (0 < t.time - now ∧ t.time - now ≤ 60) := by omega
      by_cases hE60 : ∃ x ∈ ns, 3540 ≤ t.time - x ∧ t.time - x ≤ 3600
      · have hmem : t.timer_id ∈ st.sixty := by
          rw [ih1, if_pos hE60]
          simp
        rw [if_neg (by rintro ⟨-, -, h⟩; exact h hmem)]
        rw [if_neg (by rintro ⟨a, b, -⟩; exact hw0 ⟨a, b⟩)]
        refine ⟨?_, ?_, ?_, ?_⟩
        · rw [ih1, if_pos hE60, if_pos (Or.inl hE60)]
        · rw [if_congr (or_iff_left hw0) rfl rfl]
          exact ih2
        · rw [ih3, if_pos hE60, if_pos (Or.inl hE60)]
        · rw [if_congr (or_iff_left hw0) rfl rfl]
          exact ih4
      · have hmem : t.timer_id ∉ st.sixty := by
          rw [ih1, if_neg hE60]
          simp
        rw [if_pos ⟨hw60.1, hw60.2, hmem⟩]
        refine ⟨?_, ?_, ?_, ?_⟩
        · show st.sixty ++ [t.timer_id] = _
          rw [ih1, if_neg hE60, if_pos (Or.inr hw60)]
          rfl
        · show st.started = _
          rw [if_congr (or_iff_left hw0) rfl rfl]
          exact ih2
        · show (st.alerts ++ [(true, t.timer_id)]).count (true, t.timer_id) = _
          rw [count_append_singleton_self, ih3, if_neg hE60, if_pos (Or.inr hw60)]
        · show (st.alerts ++ [(true, t.timer_id)]).count (false, t.timer_id) = _
          rw [count_append_singleton_ne _ _ _ (by simp), ih4,
            if_congr (or_iff_left hw0) rfl rfl]
    · by_cases hw0 : 0 < t.time - now ∧ t.time - now ≤ 60
      · have hn1 : ¬ (3540 ≤ t.time - now ∧ t.time - now ≤ 3600 ∧ t.timer_id ∉ st.sixty) := by
          rintro ⟨a, b, -⟩
          exact hw60 ⟨a, b⟩
        rw [if_neg hn1]
        by_cases hE0 : ∃ x ∈ ns, 0 < t.time - x ∧ t.time - x ≤ 60
        · have hmem : t.timer_id ∈ st.started := by
            rw [ih2, if_pos hE0]
            simp
          rw [if_neg (by rintro ⟨-, -, h⟩; exact h hmem)]
          refine ⟨?_, ?_, ?_, ?_⟩
          · rw [if_congr (or_iff_left hw60) rfl rfl]
            exact ih1
          · rw [ih2, if_pos hE0, if_pos (Or.inl hE0)]
          · rw [if_congr (or_iff_left hw60) rfl rfl]
            exact ih3
          · rw [ih4, if_pos hE0, if_pos (Or.inl hE0)]
        · have hmem : t.timer_id ∉ st.started := by
            rw [ih2, if_neg hE0]
            simp
          rw [if_pos ⟨hw0.1, hw0.2, hmem⟩]
          refine ⟨?_, ?_, ?_, ?_⟩
          · show st.sixty = _
            rw [if_congr (or_iff_left hw60) rfl rfl]
            exact ih1
          · show st.started ++ [t.timer_id] = _
            rw [ih2, if_neg hE0, if_pos (Or.inr hw0)]
            rfl
          · show (st.alerts ++ [(false, t.timer_id)]).count (true, t.timer_id) = _
            rw [count_append_singleton_ne _ _ _ (by simp), ih3,
              if_congr (or_iff_left hw60) rfl rfl]
          · show (st.alerts ++ [(false, t.timer_id)]).count (false, t.timer_id) = _
            rw [count_append_singleton_self, ih4, if_neg hE0, if_pos (Or.inr hw0)]
      · have hn1 : ¬ (3540 ≤ t.time - now ∧ t.time - now ≤ 3600 ∧ t.timer_id ∉ st.sixty) := by
          rintro ⟨a, b, -⟩
          exact hw60 ⟨a, b⟩
        have hn2 : ¬ (0 < t.time - now ∧ t.time - now ≤ 60 ∧ t.timer_id ∉ st.started) := by
          rintro ⟨a, b, -⟩
          exact hw0 ⟨a, b⟩
        rw [if_neg hn1, if_neg hn2]
        refine ⟨?_, ?_, ?_, ?_⟩
        · rw [if_congr (or_iff_left hw60) rfl rfl]
          exact ih1
        · rw [if_congr (or_iff_left hw0) rfl rfl]
          exact ih2
        · rw [if_congr (or_iff_left hw60) rfl rfl]
          exact ih3
        · rw [if_congr (or_iff_left hw0) rfl rfl]
          exact ih4

/-- C3 (amended): for a non-filtered timer watched over any sequence of
scheduler cycles, the 60-minute warning is emitted exactly once iff some
cycle observes `59 ≤ minutesUntil ≤ 60` — the code's hardcoded window,
whose upper edge is the threshold itself rather than a ±1-minute band
around a configured value (the upcoming-timer filter caps at 3600
seconds) — and the starting-now notification exactly once iff some cycle
observes `0 < minutesUntil ≤ 1` (the `-1 ≤ minutesUntil` half of the
code's test is subsumed by `time > now`); re-observation inside a window
never re-emits. -/
theorem alert_window_and_idempotence (nows : List Int) (t : Timer) (nid : Nat)
    (fr : List PyStr) (hf : isFilteredAlert fr t = false) :
    ((runCycles nows ⟨[t], nid, fr⟩ initAlertState).alerts.count (true, t.timer_id)
      = if ∃ now ∈ nows, 3540 ≤ t.time - now ∧ t.time - now ≤ 3600 then 1 else 0) ∧
    ((runCycles nows ⟨[t], nid, fr⟩ initAlertState).alerts.count (false, t.timer_id)
      = if ∃ now ∈ nows, 0 < t.time - now ∧ t.time - now ≤ 60 then 1 else 0) := by
  have h := runCycles_singleton_state t nid fr hf nows
  exact ⟨h.2.2.1, h.2.2.2⟩

/-- Witness for C3's amended theorem: two cycles both observing the timer
at exactly the 60-minute mark emit exactly one 60-minute warning and no
starting-now notification. -/
theorem alert_window_and_idempotence_witness :
    ((runCycles [60, 60] ⟨[c3Timer], 1000, []⟩ initAlertState).alerts.count
      (true, c3Timer.timer_id) = 1) ∧
    ((runCycles [60, 60] ⟨[c3Timer], 1000, []⟩ initAlertState).alerts.count
      (false, c3Timer.timer_id) = 0) := by
  have h := alert_window_and_idempotence [60, 60] c3Timer 1000 [] (by decide)
  constructor
  · rw [h.1, if_pos (by decide)]
  · rw [h.2, if_neg (by decide)]

/-! ### Pagination lemmas -/

theorem tb_length_dropWhile_le (p : Char → Bool) (l : PyStr) :
    (l.dropWhile p).length ≤ l.length := by
  induction l with
  | nil => simp
  | cons c cs ih =>
    rw [List.dropWhile]
    split
    · exact Nat.le_succ_of_le ih
    · exact Nat.le_refl _

theorem pyStrip_length_le (s : PyStr) : (pyStrip s).length ≤ s.length := by
  rw [pyStrip, List.length_reverse]
  refine le_trans (tb_length_dropWhile_le _ _) ?_
  rw [List.length_reverse]
  exact tb_length_dropWhile_le _ _

theorem dropWhile_append_last (p : Char → Bool) (c : Char) (hc : p c = false)
    (ys : PyStr) : ∃ zs : PyStr, List.dropWhile p (ys ++ [c]) = zs ++ [c] := by
  induction ys with
  | nil => exact ⟨[], by simp [List.dropWhile, hc]⟩
  | cons a ys ih =>
    by_cases h : p a
    · rcases ih with ⟨zs, hzs⟩
      exact ⟨zs, by simp [List.dropWhile, h, hzs]⟩
    · exact ⟨a :: ys, by simp [List.dropWhile, h]⟩

theorem pyStrip_head (c : Char) (t : PyStr) (hc : pyIsSpace c = false) :
    ∃ r, pyStrip (c :: t) = c :: r := by
  rw [pyStrip]
  rw [show List.dropWhile pyIsSpace (c :: t) = c :: t by simp [List.dropWhile, hc]]
  rcases dropWhile_append_last pyIsSpace c hc t.reverse with ⟨zs, hzs⟩
  refine ⟨zs.reverse, ?_⟩
  rw [show (c :: t).reverse = t.reverse ++ [c] by simp]
  rw [hzs]
  simp

theorem length_dropWhile_append_ge (p : Char → Bool) (c : Char) (hc : p c = false)
    (ys xs : PyStr) : xs.length + 1 ≤ (List.dropWhile p (ys ++ c :: xs)).length := by
  induction ys with
  | nil =>
    rw [List.nil_append,
      show List.dropWhile p (c :: xs) = c :: xs by simp [List.dropWhile, hc]]
    simp
  | cons a ys ih =>
    rw [List.cons_append, List.dropWhile]
    split
    · exact ih
    · simp
      omega

theorem pyStrip_length_ge (x : Char) (xs : PyStr) (c : Char) (ys : PyStr)
    (hx : pyIsSpace x = false) (hc : pyIsSpace c = false) :
    (x :: xs).length + 1 ≤ (pyStrip ((x :: xs) ++ c :: ys)).length := by
  rw [pyStrip]
  rw [show List.dropWhile pyIsSpace ((x :: xs) ++ c :: ys) = (x :: xs) ++ c :: ys by
    simp [List.cons_append, List.dropWhile, hx]]
  rw [List.length_reverse]
  rw [show ((x :: xs) ++ c :: ys).reverse = ys.reverse ++ c :: (x :: xs).reverse by simp]
  have h := length_dropWhile_append_ge pyIsSpace c hc ys.reverse (x :: xs).reverse
  simpa using h

theorem pyHeader_eq_cons (ts : PyStr) :
    pyHeader ts = 'C' :: ("urrent Time: ".data ++ ts ++ ['\n', '\n']) := rfl

theorem pyHeader_length (ts : PyStr) : (pyHeader ts).length = ts.length + 16 := by
  rw [pyHeader]
  simp

theorem linesFlat_cons (l : PyStr) (ls : List PyStr) :
    linesFlat (l :: ls) = (l ++ ['\n']) ++ linesFlat ls := by
  simp [linesFlat]

theorem linesFlat_append_singleton (ls : List PyStr) (l : PyStr) :
    linesFlat (ls ++ [l]) = linesFlat ls ++ (l ++ ['\n']) := by
  simp [linesFlat]

/-- The final-page emission test holds whenever the current message
carries at least one `GoodLine`. -/
theorem emit_condition_of_lines (ts : PyStr) (hts : ts.length = 19)
    (cur : PyStr × List PyStr) (hok : CurOk ts cur)
    (hgood : ∀ l ∈ cur.2, GoodLine l) (hne : cur.2 ≠ []) :
    pyStrip cur.1 ≠ [] ∧ pyStrip cur.1 ≠ pyStrip (pyHeader ts) := by
  obtain ⟨l0, ls, hl2⟩ : ∃ l0 ls, cur.2 = l0 :: ls := by
    cases h : cur.2 with
    | nil => exact absurd h hne
    | cons a b => exact ⟨a, b, rfl⟩
  obtain ⟨c, r, hl0, hcs, hcC⟩ := hgood l0 (by rw [hl2]; exact List.mem_cons_self _ _)
  have hflat : linesFlat (l0 :: ls) = c :: (r ++ ['\n'] ++ linesFlat ls) := by
    rw [linesFlat_cons, hl0]
    simp
  rcases hok with hok | ⟨-, hok⟩
  · -- header followed by the lines
    have hshape : cur.1 = ('C' :: ("urrent Time: ".data ++ ts ++ ['\n', '\n']))
        ++ c :: (r ++ ['\n'] ++ linesFlat ls) := by
      rw [hok, hl2, hflat, pyHeader_eq_cons]
    have hlen := pyStrip_length_ge 'C' ("urrent Time: ".data ++ ts ++ ['\n', '\n'])
      c (r ++ ['\n'] ++ linesFlat ls) (by decide) hcs
    rw [← hshape] at hlen
    have hhead : ('C' :: ("urrent Time: ".data ++ ts ++ ['\n', '\n'])).length
        = (pyHeader ts).length := by rw [pyHeader_eq_cons]
    rw [hhead] at hlen
    have hstripHeader := pyStrip_length_le (pyHeader ts)
    constructor
    · intro hnil
      rw [hnil] at hlen
      simp at hlen
    · intro heq
      rw [heq] at hlen
      omega
  · -- lines only
    have hshape : cur.1 = c :: (r ++ ['\n'] ++ linesFlat ls) := by rw [hok, hl2, hflat]
    obtain ⟨r1, hr1⟩ := pyStrip_head c (r ++ ['\n'] ++ linesFlat ls) hcs
    rw [hshape, hr1]
    obtain ⟨r2, hr2⟩ := pyStrip_head 'C' ("urrent Time: ".data ++ ts ++ ['\n', '\n'])
      (by decide)
    rw [pyHeader_eq_cons, hr2]
    refine ⟨by simp, ?_⟩
    intro heq
    injection heq with h1 h2
    exact hcC h1

theorem splitLoop_spec (ts : PyStr) (hts : ts.length = 19) (rest : List PyStr) :
    ∀ (cur : PyStr × List PyStr) (acc : List (PyStr × List PyStr)),
    (∀ l ∈ rest, GoodLine l ∧ l.length + 1 ≤ MAX_MESSAGE_LENGTH) →
    (∀ l ∈ cur.2, GoodLine l) →
    cur.1.length ≤ MAX_MESSAGE_LENGTH →
    CurOk ts cur →
    (∀ p ∈ acc, p.1.length ≤ MAX_MESSAGE_LENGTH) →
    (∀ p ∈ splitLoop (pyHeader ts) rest cur acc, p.1.length ≤ MAX_MESSAGE_LENGTH) ∧
    ((splitLoop (pyHeader ts) rest cur acc).map Prod.snd).join
      = (acc.map Prod.snd).join ++ cur.2 ++ rest := by
  induction rest with
  | nil =>
    intro cur acc hrest hgood hlen hok hacc
    rw [splitLoop]
    by_cases hne : cur.2 = []
    · have hcur1 : cur.1 = pyHeader ts := by
        rcases hok with hok | ⟨h, -⟩
        · rw [hok, hne]
          simp [linesFlat]
        · exact absurd hne h
      rw [if_neg (by rw [hcur1]; rintro ⟨-, h⟩; exact h rfl)]
      refine ⟨hacc, ?_⟩
      rw [hne]
      simp
    · have hcond := emit_condition_of_lines ts hts cur hok hgood hne
      rw [if_pos hcond]
      constructor
      · intro p hp
        rcases List.mem_append.mp hp with h | h
        · exact hacc p h
        · simp at h
          rw [h]
          exact le_trans (pyStrip_length_le _) hlen
      · simp
  | cons l rest ih =>
    intro cur acc hrest hgood hlen hok hacc
    have hl := hrest l (List.mem_cons_self _ _)
    rw [splitLoop]
    by_cases hovf : cur.1.length + l.length + 1 > MAX_MESSAGE_LENGTH
    · rw [if_pos hovf]
      have hspec := ih (l ++ ['\n'], [l]) (acc ++ [(pyStrip cur.1, cur.2)])
        (fun x hx => hrest x (List.mem_cons_of_mem _ hx))
        (by intro x hx; simp at hx; rw [hx]; exact hl.1)
        (by simp; omega)
        (Or.inr ⟨by simp, by simp [linesFlat]⟩)
        (by
          intro p hp
          rcases List.mem_append.mp hp with h | h
          · exact hacc p h
          · simp at h
            rw [h]
            exact le_trans (pyStrip_length_le _) hlen)
      refine ⟨hspec.1, ?_⟩
      rw [hspec.2]
      simp
    · rw [if_neg hovf]
      have hspec := ih (cur.1 ++ l ++ ['\n'], cur.2 ++ [l]) acc
        (fun x hx => hrest x (List.mem_cons_of_mem _ hx))
        (by
          intro x hx
          rcases List.mem_append.mp hx with h | h
          · exact hgood x h
          · simp at h
            rw [h]
            exact hl.1)
        (by simp; omega)
        (by
          rcases hok with hok | ⟨h, hok⟩
          · exact Or.inl (by rw [hok, linesFlat_append_singleton]; simp)
          · exact Or.inr ⟨by simp, by rw [hok, linesFlat_append_singleton]; simp⟩)
        hacc
      refine ⟨hspec.1, ?_⟩
      rw [hspec.2]
      simp

theorem goodLine_strip (c : Char) (s : PyStr) (h1 : pyIsSpace c = false)
    (h2 : c ≠ 'C') : GoodLine (pyStrip (c :: s)) := by
  obtain ⟨r, hr⟩ := pyStrip_head c s h1
  exact ⟨c, r, hr, h1, h2⟩

theorem goodLine_append (l m : PyStr) (h : GoodLine l) : GoodLine (l ++ m) := by
  obtain ⟨c, r, rfl, h1, h2⟩ := h
  exact ⟨c, r ++ m, rfl, h1, h2⟩

/-- Every `Timer.to_string` output satisfies `GoodLine`: it starts with a
tilde (struck through) or the timestamp's opening backtick, never with
whitespace or the header's `C` — so the `GoodLine` hypothesis of the
amended pagination theorem holds for every rendered timer line. -/
theorem timerToString_goodLine (now : Int) (t : Timer) :
    GoodLine (timerToString now t) := by
  simp only [timerToString, List.append_assoc, List.singleton_append, List.cons_append]
  generalize formatTime t.time = A
  generalize cleanSystemName t.system = B
  generalize natDigits t.timer_id = D
  split
  · exact ⟨'~', _, rfl, by decide, by decide⟩
  · repeat' split
    all_goals
      first
      | exact goodLine_strip '\x60' _ (by decide) (by decide)
      | exact goodLine_append _ _ (goodLine_strip '\x60' _ (by decide) (by decide))
      | exact goodLine_append _ _
          (goodLine_append _ _ (goodLine_strip '\x60' _ (by decide) (by decide)))

/-- C4 (amended): the page-splitting step of `update_timerboard`, run on
timer lines each shorter than `MAX_MESSAGE_LENGTH` (the amendment the
counterexample forces — a single longer line becomes a page by itself that
exceeds the bound), produces pages that concatenate to exactly the input
line list, each line whole on exactly one page, and every page string
within `MAX_MESSAGE_LENGTH = 1900`. The `GoodLine` hypothesis records the
shape of every `Timer.to_string` output (first character a backtick or
tilde). -/
theorem pagination_lossless_and_bounded (ts : PyStr) (ls : List PyStr)
    (hts : ts.length = 19)
    (hlen : ∀ l ∈ ls, l.length + 1 ≤ MAX_MESSAGE_LENGTH)
    (hgood : ∀ l ∈ ls, GoodLine l) :
    (∀ p ∈ splitMessages (pyHeader ts) ls, p.1.length ≤ MAX_MESSAGE_LENGTH) ∧
    ((splitMessages (pyHeader ts) ls).map Prod.snd).join = ls := by
  cases ls with
  | nil =>
    rw [splitMessages, if_pos rfl]
    refine ⟨?_, by simp⟩
    intro p hp
    simp at hp
    rw [hp]
    simp [pyHeader_length, hts, MAX_MESSAGE_LENGTH]
  | cons l ls =>
    rw [splitMessages, if_neg (by simp)]
    have hspec := splitLoop_spec ts hts (l :: ls) (pyHeader ts, []) []
      (fun x hx => ⟨hgood x hx, hlen x hx⟩)
      (by intro x hx; cases hx)
      (by rw [pyHeader_length, hts]; decide)
      (Or.inl (by simp [linesFlat]))
      (by intro p hp; cases hp)
    exact ⟨hspec.1, by rw [hspec.2]; simp⟩

/-- C4 counterexample: on a single 1960-character timer line the splitting
step emits a page of 1960 characters, exceeding
`MAX_MESSAGE_LENGTH = 1900` — the claim's unconditional page bound fails. -/
theorem pagination_counterexample :
    ∃ p ∈ splitMessages (pyHeader "2024-01-01 00:00:00".data) [c4LongLine],
      MAX_MESSAGE_LENGTH < p.1.length := by
  have hts : ("2024-01-01 00:00:00".data : PyStr).length = 19 := by decide
  have hrep : c4LongLine = 'a' :: List.replicate 1959 'a' := by
    rw [c4LongLine, show (1960 : Nat) = 1959 + 1 from rfl, List.replicate_succ]
  have hlinelen : c4LongLine.length = 1960 := by simp [c4LongLine]
  rw [splitMessages, if_neg (by simp)]
  rw [splitLoop, if_pos (by
    rw [pyHeader_length, hts, hlinelen]
    decide)]
  rw [splitLoop]
  have hcond := emit_condition_of_lines "2024-01-01 00:00:00".data hts
    (c4LongLine ++ ['\n'], [c4LongLine])
    (Or.inr ⟨by simp, by simp [linesFlat]⟩)
    (by
      intro l hl
      simp at hl
      rw [hl, hrep]
      exact ⟨'a', List.replicate 1959 'a', rfl, by decide, by decide⟩)
    (by simp)
  rw [if_pos hcond]
  refine ⟨(pyStrip (c4LongLine ++ ['\n']), [c4LongLine]), by simp, ?_⟩
  have hshape : c4LongLine ++ ['\n'] = ('a' :: List.replicate 1958 'a') ++ 'a' :: ['\n'] := by
    rw [c4LongLine, show (1960 : Nat) = (1958 + 1) + 1 from rfl, List.replicate_succ,
      List.replicate_succ']
    simp
  have hge := pyStrip_length_ge 'a' (List.replicate 1958 'a') 'a' ['\n']
    (by decide) (by decide)
  rw [← hshape] at hge
  simp at hge
  show MAX_MESSAGE_LENGTH < (pyStrip (c4LongLine ++ ['\n'])).length
  rw [MAX_MESSAGE_LENGTH]
  omega

/-- Witness for C4's amended theorem on a concrete two-line board. -/
theorem pagination_lossless_and_bounded_witness :
    (∀ p ∈ splitMessages (pyHeader "2024-01-01 00:00:00".data)
      ["\x60a\x60".data, "~~b~~".data], p.1.length ≤ MAX_MESSAGE_LENGTH) ∧
    ((splitMessages (pyHeader "2024-01-01 00:00:00".data)
      ["\x60a\x60".data, "~~b~~".data]).map Prod.snd).join
      = ["\x60a\x60".data, "~~b~~".data] := by
  refine pagination_lossless_and_bounded _ _ (by decide) (by decide) ?_
  intro l hl
  rcases List.mem_cons.mp hl with h | h
  · exact ⟨'\x60', "a\x60".data, by rw [h], by decide, by decide⟩
  · simp at h
    exact ⟨'~', "~b~~".data, by rw [h], by decide, by decide⟩

end Timerbot
